import Mathlib

/-!
Shallow embedding of `escape.go` from `github.com/jesseduffield/gocui`, the
single source file vendored in this repository: the terminal escape-sequence
interpreter `escapeInterpreter` with its operations `parseOne`, `runes`,
`reset` and `instructionRead`, and the two color resolvers `outputNormal`
(Basic, 8 colors) and `output256` (Extended, 256 colors).

Modelling conventions:
* Go strings are modelled as their rune lists (`List Char`). Every rune the
  interpreter ever stores in `csiParam` is ASCII, so Go's byte length `len`
  and the rune count agree on all states the code can build.
* Go `int` is modelled as `Int`; `strconv.Atoi` is modelled by `goAtoi`,
  including its failure on empty input, non-digits, and 64-bit overflow.
* The `sync.Mutex` is modelled where it is observable: `parseOne` holds the
  mutex for the whole call, and `output256` (called from `parseOne`) starts
  by locking it again. A Go `sync.Mutex` is not reentrant, so that second
  `Lock` never returns. Functions that can hit it return `Option` results,
  `none` meaning "the call blocks forever and never returns".
-/

namespace Gocui

/-- A Go string, as its list of runes. -/
abbrev GoString := List Char

/-- Modelled from the spec: the `Attribute` type of gocui is declared in
gocui source files that are not vendored in this repository; per the spec it
packs a color slot (slot 0 is the terminal default, at least 9 bits wide)
with modifier flags in disjoint higher bits. We model it as an unbounded
bit field. -/
abbrev Attribute := Nat

/-- Modelled from the spec: slot 0 is the terminal default color. -/
def ColorDefault : Attribute := 0

/-- Modelled from the spec: the Bold modifier flag, in the first bit above
the 9 slot bits. -/
def AttrBold : Attribute := 512

/-- Modelled from the spec: the Underline modifier flag. -/
def AttrUnderline : Attribute := 1024

/-- Modelled from the spec: the Reverse modifier flag. -/
def AttrReverse : Attribute := 2048

/-- Modelled from the spec: the output mode, fixed at construction — Basic
(gocui constant `OutputNormal`) or Extended 256-color (gocui constant
`Output256`); the constant declarations live in gocui files not vendored
here. -/
inductive OutputMode where
  | OutputNormal
  | Output256
  deriving DecidableEq

/-- Instruction-kind constant `NONE` of escape.go (`1 << iota`). -/
def NONE : Nat := 1

/-- Instruction-kind constant `CURSOR_UP`. -/
def CURSOR_UP : Nat := 2

/-- Instruction-kind constant `CURSOR_DOWN`. -/
def CURSOR_DOWN : Nat := 4

/-- Instruction-kind constant `CURSOR_LEFT`. -/
def CURSOR_LEFT : Nat := 8

/-- Instruction-kind constant `CURSOR_RIGHT`. -/
def CURSOR_RIGHT : Nat := 16

/-- Instruction-kind constant `CURSOR_MOVE`. -/
def CURSOR_MOVE : Nat := 32

/-- Instruction-kind constant `CLEAR_SCREEN`. -/
def CLEAR_SCREEN : Nat := 64

/-- Instruction-kind constant `ERASE_TO_END_OF_LINE`. -/
def ERASE_TO_END_OF_LINE : Nat := 128

/-- The single-slot instruction latch of escape.go. -/
structure instruction where
  kind : Nat
  param1 : Int
  param2 : Int
  deriving DecidableEq

/-- `escapeState` of escape.go. -/
inductive escapeState where
  | stateNone
  | stateEscape
  | stateCSI
  | stateParams
  deriving DecidableEq

/-- The three error values of escape.go (`errNotCSI`, `errCSIParseError`,
`errCSITooLong`). -/
inductive GoErr where
  | errNotCSI
  | errCSIParseError
  | errCSITooLong
  deriving DecidableEq

/-- The `escapeInterpreter` struct of escape.go (the `sync.Mutex` field is
modelled in the control flow of the operations, not as data). -/
structure escapeInterpreter where
  state : escapeState
  curch : Char
  csiParam : List GoString
  curFgColor : Attribute
  curBgColor : Attribute
  mode : OutputMode
  instruction : instruction
  deriving DecidableEq

/-- `directionMap` of escape.go. It is a Go map; looking up a key that is
absent yields the zero value 0, though `parseOne` only consults it at
`A`, `B`, `C`, `D`. -/
def directionMap (ch : Char) : Nat :=
  if ch = 'A' then CURSOR_UP
  else if ch = 'B' then CURSOR_DOWN
  else if ch = 'C' then CURSOR_LEFT
  else if ch = 'D' then CURSOR_RIGHT
  else 0

/-- `strconv.Atoi` on a 64-bit platform: an optional sign followed by
decimal digits; it fails on an empty string, on any non-digit, and on a
value outside the `int64` range. -/
def goAtoi (s : GoString) : Option Int :=
  let core : Int → List Char → Option Int := fun sign ds =>
    if ds = [] then none
    else if ds.all Char.isDigit then
      let v : Int := sign * Int.ofNat (ds.foldl (fun a c => a * 10 + (c.toNat - 48)) 0)
      if v < -(2 ^ 63) ∨ 2 ^ 63 - 1 < v then none else some v
    else none
  match s with
  | '+' :: rest => core 1 rest
  | '-' :: rest => core (-1) rest
  | l => core 1 l

/-- `newEscapeInterpreter` of escape.go; Go fields not named in the literal
start at their zero values (`curch` is rune 0, `csiParam` is nil, the
instruction params are 0). -/
def newEscapeInterpreter (mode : OutputMode) : escapeInterpreter :=
  { state := .stateNone
    curch := '\x00'
    csiParam := []
    curFgColor := ColorDefault
    curBgColor := ColorDefault
    mode := mode
    instruction := { kind := NONE, param1 := 0, param2 := 0 } }

/-- `runes` of escape.go: the buffered-literal accessor (the spec's
`takeBufferedLiteral` / `peekBuffered`). It locks the (free) mutex for the
duration of the call. -/
def runes (ei : escapeInterpreter) : List Char :=
  match ei.state with
  | .stateNone => ['\x1b']
  | .stateEscape => ['\x1b', ei.curch]
  | .stateCSI => ['\x1b', '[', ei.curch]
  | .stateParams => (ei.csiParam.foldl (fun ret s => ret ++ s) ['\x1b', '[']) ++ [ei.curch]

/-- `reset` of escape.go: back to `stateNone`, both colors default, nil
parameter list; all other fields are untouched and no error is possible. -/
def reset (ei : escapeInterpreter) : escapeInterpreter :=
  { ei with
    state := .stateNone
    curFgColor := ColorDefault
    curBgColor := ColorDefault
    csiParam := [] }

/-- `instructionRead` of escape.go (the spec's `clearInstruction`): sets the
latch kind back to `NONE` and touches nothing else. -/
def instructionRead (ei : escapeInterpreter) : escapeInterpreter :=
  { ei with instruction := { ei.instruction with kind := NONE } }

/-- The body of the `outputNormal` loop for one parameter: the effect of a
single parsed SGR code on the attribute fields (the switch of escape.go
lines 248-266). -/
def applySGR (ei : escapeInterpreter) (p : Int) : escapeInterpreter :=
  if 30 ≤ p ∧ p ≤ 37 then { ei with curFgColor := (p - 30 + 1).toNat }
  else if p = 39 then { ei with curFgColor := ColorDefault }
  else if 40 ≤ p ∧ p ≤ 47 then { ei with curBgColor := (p - 40 + 1).toNat }
  else if p = 49 then { ei with curBgColor := ColorDefault }
  else if p = 1 then { ei with curFgColor := Nat.lor ei.curFgColor AttrBold }
  else if p = 4 then { ei with curFgColor := Nat.lor ei.curFgColor AttrUnderline }
  else if p = 7 then { ei with curFgColor := Nat.lor ei.curFgColor AttrReverse }
  else if p = 0 then { ei with curFgColor := ColorDefault, curBgColor := ColorDefault }
  else ei

/-- The `outputNormal` loop over an explicit parameter list: `strconv.Atoi`
each parameter in order, stopping with `errCSIParseError` at the first
non-numeric one; the effects of the earlier parameters are kept. -/
def outputNormalGo : List GoString → escapeInterpreter → escapeInterpreter × Option GoErr
  | [], ei => (ei, none)
  | s :: rest, ei =>
    match goAtoi s with
    | none => (ei, some .errCSIParseError)
    | some p => outputNormalGo rest (applySGR ei p)

/-- `outputNormal` of escape.go (the Basic resolver). It takes no lock. -/
def outputNormal (ei : escapeInterpreter) : escapeInterpreter × Option GoErr :=
  outputNormalGo ei.csiParam ei

/-- The trailing-modifier loop of `output256` (over `csiParam[3:]` in the
38 case): each parameter must be numeric, and values 1, 4, 7 set Bold,
Underline, Reverse on the foreground. -/
def scanMods : List GoString → escapeInterpreter → escapeInterpreter × Option GoErr
  | [], ei => (ei, none)
  | s :: rest, ei =>
    match goAtoi s with
    | none => (ei, some .errCSIParseError)
    | some p =>
      scanMods rest
        (if p = 1 then { ei with curFgColor := Nat.lor ei.curFgColor AttrBold }
        else if p = 4 then { ei with curFgColor := Nat.lor ei.curFgColor AttrUnderline }
        else if p = 7 then { ei with curFgColor := Nat.lor ei.curFgColor AttrReverse }
        else ei)

/-- The body of `output256` after its `ei.mutex.Lock()` (escape.go lines
281-327): the Extended resolver logic. -/
def output256Body (ei : escapeInterpreter) : escapeInterpreter × Option GoErr :=
  if ei.csiParam.length < 3 then outputNormal ei
  else
    match goAtoi (ei.csiParam.getD 1 []) with
    | none => (ei, some .errCSIParseError)
    | some mode =>
      if mode ≠ 5 then outputNormal ei
      else
        match goAtoi (ei.csiParam.getD 0 []) with
        | none => (ei, some .errCSIParseError)
        | some fgbg =>
          match goAtoi (ei.csiParam.getD 2 []) with
          | none => (ei, some .errCSIParseError)
          | some color =>
            if fgbg = 38 then
              scanMods (ei.csiParam.drop 3) { ei with curFgColor := (color + 1).toNat }
            else if fgbg = 48 then
              ({ ei with curBgColor := (color + 1).toNat }, none)
            else (ei, some .errCSIParseError)

/-- `output256` of escape.go: it begins with `ei.mutex.Lock()`.
`heldMutex` records whether the caller already holds `ei.mutex`; a Go
`sync.Mutex` is not reentrant, so locking a held mutex never returns,
modelled by `none`. -/
def output256 (heldMutex : Bool) (ei : escapeInterpreter) :
    Option (escapeInterpreter × Option GoErr) :=
  if heldMutex then none
  else some (output256Body ei)

/-- The `stateParams` arm of `parseOne`'s switch (escape.go lines 167-234),
factored out because the `stateCSI` arm falls through into it; `ei.curch`
has already been set by `parseOne`. The result is `none` when the call
never returns (the `Output256` resolver locks the mutex `parseOne` already
holds). -/
def parseParams (ei : escapeInterpreter) (ch : Char) :
    Option (escapeInterpreter × Bool × Option GoErr) :=
  if ('0' ≤ ch ∧ ch ≤ '9') ∨ ch = '?' then
    some ({ ei with csiParam := ei.csiParam.dropLast ++ [ei.csiParam.getLastD [] ++ [ch]] },
      true, none)
  else if ch = ';' then
    some ({ ei with csiParam := ei.csiParam ++ [[]] }, true, none)
  else if ch = 'm' then
    match ei.mode with
    | .OutputNormal =>
      match outputNormal ei with
      | (ei2, some _) => some (ei2, false, some .errCSIParseError)
      | (ei2, none) => some ({ ei2 with state := .stateNone, csiParam := [] }, true, none)
    | .Output256 =>
      match output256 true ei with
      | none => none
      | some (ei2, some _) => some (ei2, false, some .errCSIParseError)
      | some (ei2, none) => some ({ ei2 with state := .stateNone, csiParam := [] }, true, none)
  else if ch = 'A' ∨ ch = 'B' ∨ ch = 'C' ∨ ch = 'D' then
    match goAtoi (ei.csiParam.getD 0 []) with
    | none => some (ei, false, some .errCSIParseError)
    | some p =>
      some ({ ei with
        instruction := { ei.instruction with kind := directionMap ch, param1 := p },
        state := .stateNone, csiParam := [] }, true, none)
  else if ch = 'J' then
    some ({ ei with
        instruction := { ei.instruction with kind := CLEAR_SCREEN },
        state := .stateNone, csiParam := [] }, true, none)
  else if ch = 'h' then
    if ei.csiParam.getD 0 [] = ['?', '2', '5'] then
      some ({ ei with state := .stateNone, csiParam := [] }, true, none)
    else some (ei, false, some .errCSIParseError)
  else if ch = 'l' then
    if ei.csiParam.getD 0 [] = ['?', '2', '5'] then
      some ({ ei with state := .stateNone, csiParam := [] }, true, none)
    else some (ei, false, some .errCSIParseError)
  else some (ei, false, some .errCSIParseError)

/-- `parseOne` of escape.go. The mutex is free when the (sequential
external) caller enters; `parseOne` locks it for the whole call and the
deferred unlock runs on return. The result is the updated interpreter, the
`isEscape` flag and the returned error; `none` means the call never
returns (see `output256`). -/
def parseOne (ei : escapeInterpreter) (ch : Char) :
    Option (escapeInterpreter × Bool × Option GoErr) :=
  if 20 < ei.csiParam.length then some (ei, false, some .errCSITooLong)
  else if 0 < ei.csiParam.length ∧ 255 < (ei.csiParam.getLastD []).length then
    some (ei, false, some .errCSITooLong)
  else
    let ei := { ei with curch := ch }
    match ei.state with
    | .stateNone =>
      if ch = '\x1b' then some ({ ei with state := .stateEscape }, true, none)
      else some (ei, false, none)
    | .stateEscape =>
      if ch = '[' then some ({ ei with state := .stateCSI }, true, none)
      else some (ei, false, some .errNotCSI)
    | .stateCSI =>
      if '0' ≤ ch ∧ ch ≤ '9' then
        parseParams { ei with csiParam := ei.csiParam ++ [[]], state := .stateParams } ch
      else if ch = 'm' then
        parseParams { ei with csiParam := ei.csiParam ++ [['0']], state := .stateParams } ch
      else if ch = 'K' then
        some ({ ei with
            instruction := { ei.instruction with kind := ERASE_TO_END_OF_LINE },
            state := .stateNone, csiParam := [] }, true, none)
      else if ch = '?' then
        parseParams { ei with csiParam := ei.csiParam ++ [[]], state := .stateParams } ch
      else some (ei, false, some .errCSIParseError)
    | .stateParams => parseParams ei ch

/-- Feed a list of characters in order, requiring every call to return and
to return without error; alongside the interpreter it tracks the raw
characters consumed since the interpreter was last in `stateNone` — the
"since the last Idle state" buffer of the spec's replay contract. -/
def feedNoErr :
    escapeInterpreter × List Char → List Char → Option (escapeInterpreter × List Char)
  | p, [] => some p
  | (ei, buf), c :: cs =>
    match parseOne ei c with
    | some (ei2, _, none) =>
      feedNoErr (ei2, if ei2.state = .stateNone then [] else buf ++ [c]) cs
    | _ => none

/-- The interpreter states reachable from a fresh interpreter by any
sequence of `parseOne`, `reset` and `instructionRead` calls (errors
included, a `parseOne` call that never returns excluded). -/
inductive ReachAny : escapeInterpreter → Prop where
  | init : ∀ mode, ReachAny (newEscapeInterpreter mode)
  | step : ∀ ei c ei2 f e, ReachAny ei → parseOne ei c = some (ei2, f, e) → ReachAny ei2
  | doReset : ∀ ei, ReachAny ei → ReachAny (reset ei)
  | doRead : ∀ ei, ReachAny ei → ReachAny (instructionRead ei)

/-- The concatenation of the runes of the stored parameters, exactly as the
`runes` loop of escape.go builds it. -/
def paramChars (l : List GoString) : List Char :=
  l.foldl (fun a s => a ++ s) []

/-- Relation between an interpreter state and the raw characters consumed
since the interpreter was last in `stateNone` (as tracked by `feedNoErr`),
maintained along every error-free history: outside `stateNone` the buffer
is `ESC`, then `[`, then — in `stateParams` — the fed parameter characters,
of which exactly the `;` separators are missing from `csiParam`. -/
def Inv (ei : escapeInterpreter) (buf : List Char) : Prop :=
  match ei.state with
  | .stateNone => buf = [] ∧ ei.csiParam = []
  | .stateEscape => buf = ['\x1b'] ∧ ei.csiParam = []
  | .stateCSI => buf = ['\x1b', '['] ∧ ei.csiParam = []
  | .stateParams =>
    buf.filter (fun c => c != ';') = '\x1b' :: '[' :: paramChars ei.csiParam ∧
      ei.csiParam ≠ []

/-- The effect of the `outputNormal` loop on a list of parameters that all
parse: each parsed code is applied by `applySGR` in order (parameters that
do not parse are skipped here; `outputNormalGo` never reaches them past the
first failure). -/
def applyParams (l : List GoString) (ei : escapeInterpreter) : escapeInterpreter :=
  l.foldl (fun e s =>
    match goAtoi s with
    | some p => applySGR e p
    | none => e) ei

/-- The true memory bounds on the stored parameter list: at most 21
parameters, none longer than 256 characters (the checks of `parseOne` fire
one character late, so 21 and 256 — not 20 and 255 — are the tight
bounds). -/
def paramBounds (ei : escapeInterpreter) : Prop :=
  ei.csiParam.length ≤ 21 ∧ ∀ s ∈ ei.csiParam, s.length ≤ 256

/-- Concrete state used by claim C1: the interpreter after feeding
`ESC [ 1 ; 2` from fresh in Basic mode. -/
def c1ei : escapeInterpreter :=
  { newEscapeInterpreter .OutputNormal with
    state := .stateParams, curch := '2', csiParam := [['1'], ['2']] }

/-- The start-of-call rejection condition of `parseOne`'s two sanity
checks: more than 20 stored parameters, or a nonempty parameter list whose
last parameter exceeds 255 characters. -/
abbrev tooLongCond (ei : escapeInterpreter) : Prop :=
  20 < ei.csiParam.length ∨
    (0 < ei.csiParam.length ∧ 255 < (ei.csiParam.getLastD []).length)

/-- Concrete state used by claim C3: a `stateParams` interpreter already
holding 21 parameters. -/
def c3ei : escapeInterpreter :=
  { newEscapeInterpreter .OutputNormal with
    state := .stateParams, csiParam := List.replicate 21 [] }

/-- Concrete state used by claim C3: the interpreter after feeding
`ESC [ 0` and then nineteen `;` from fresh in Basic mode — a reachable
within-bounds state holding exactly 20 parameters. -/
def c3ei20 : escapeInterpreter :=
  { newEscapeInterpreter .OutputNormal with
    state := .stateParams, curch := ';',
    csiParam := ['0'] :: List.replicate 19 ([] : GoString) }

/-- Concrete state used by claim C3: the result of feeding one more `;` to
`c3ei20` — the violating feed, leaving 21 stored parameters. -/
def c3ei21 : escapeInterpreter :=
  { c3ei20 with csiParam := c3ei20.csiParam ++ [[]] }

/-- Concrete state used by claim C4: a `stateParams` interpreter whose sole
parameter is the string `?25`. -/
def c4ei : escapeInterpreter :=
  { newEscapeInterpreter .OutputNormal with
    state := .stateParams, curch := '5', csiParam := [['?', '2', '5']] }

/-- Concrete state used by claim C5: an Extended-mode interpreter holding
the parameters `31`, `?5`, `0` (numeric, non-numeric, numeric). -/
def c5ei : escapeInterpreter :=
  { newEscapeInterpreter .Output256 with
    state := .stateParams, curch := '0', csiParam := [['3', '1'], ['?', '5'], ['0']] }

/-- Concrete state used by claim C5: an Extended-mode interpreter holding
the parameters `38`, `5`, `196`. -/
def c5ei2 : escapeInterpreter :=
  { newEscapeInterpreter .Output256 with
    state := .stateParams, curch := '6', csiParam := [['3', '8'], ['5'], ['1', '9', '6']] }

/-- Concrete state used by claim C7: a `stateParams` interpreter whose sole
parameter is the string `2`. -/
def c7ei : escapeInterpreter :=
  { newEscapeInterpreter .OutputNormal with
    state := .stateParams, curch := '2', csiParam := [['2']] }

/-- Concrete state used by claim C9: a `stateParams` interpreter holding
the parameters `31` and `?`. -/
def c9ei : escapeInterpreter :=
  { newEscapeInterpreter .OutputNormal with
    state := .stateParams, curch := '?', csiParam := [['3', '1'], ['?']] }

/-- Concrete state used by claim C10: a fresh Basic-mode interpreter. -/
def c10ei : escapeInterpreter := newEscapeInterpreter .OutputNormal

theorem foldl_append_acc (l : List GoString) (init : List Char) :
    l.foldl (fun a s => a ++ s) init = init ++ paramChars l := by
  induction l generalizing init with
  | nil => simp [paramChars]
  | cons s t ih =>
    simp only [paramChars, List.foldl_cons, List.nil_append]
    rw [ih (init ++ s), ih s, List.append_assoc]

theorem paramChars_append (l₁ l₂ : List GoString) :
    paramChars (l₁ ++ l₂) = paramChars l₁ ++ paramChars l₂ := by
  simp only [paramChars, List.foldl_append]
  rw [foldl_append_acc]
  rfl

theorem paramChars_singleton (s : GoString) : paramChars [s] = s := by
  simp [paramChars]

theorem paramChars_update_last (l : List GoString) (hl : l ≠ []) (c : Char) :
    paramChars (l.dropLast ++ [l.getLastD [] ++ [c]]) = paramChars l ++ [c] := by
  conv_rhs => rw [← List.dropLast_append_getLast hl]
  rw [paramChars_append, paramChars_append, paramChars_singleton, paramChars_singleton,
    List.getLastD_eq_getLast?, List.getLast?_eq_getLast l hl, Option.getD_some,
    ← List.append_assoc]

theorem runes_params (ei : escapeInterpreter) (h : ei.state = .stateParams) :
    runes ei = '\x1b' :: '[' :: (paramChars ei.csiParam ++ [ei.curch]) := by
  simp only [runes, h, foldl_append_acc]
  rfl

theorem applySGR_frame (ei : escapeInterpreter) (p : Int) :
    (applySGR ei p).state = ei.state ∧ (applySGR ei p).csiParam = ei.csiParam ∧
      (applySGR ei p).curch = ei.curch ∧ (applySGR ei p).mode = ei.mode ∧
      (applySGR ei p).instruction = ei.instruction := by
  unfold applySGR
  split_ifs <;> simp

theorem outputNormalGo_frame (l : List GoString) (ei : escapeInterpreter) :
    ((outputNormalGo l ei).1.state = ei.state ∧
      (outputNormalGo l ei).1.csiParam = ei.csiParam) ∧
      (outputNormalGo l ei).1.curch = ei.curch ∧
      (outputNormalGo l ei).1.mode = ei.mode ∧
      (outputNormalGo l ei).1.instruction = ei.instruction := by
  induction l generalizing ei with
  | nil => simp [outputNormalGo]
  | cons s t ih =>
    simp only [outputNormalGo]
    rcases hA : goAtoi s with _ | p
    · simp
    · have h1 := ih (applySGR ei p)
      have h2 := applySGR_frame ei p
      simp only [h1, h2]
      tauto

theorem digit_ne_semi {c : Char} (h : ('0' ≤ c ∧ c ≤ '9') ∨ c = '?') : (c != ';') = true := by
  rcases h with ⟨h1, h2⟩ | h3
  · rw [bne_iff_ne]
    intro hc
    subst hc
    exact absurd h2 (by decide)
  · subst h3
    decide

theorem parseOne_none_esc (ei : escapeInterpreter)
    (hs : ei.state = .stateNone) (hp : ei.csiParam = []) :
    parseOne ei '\x1b' = some ({ ei with curch := '\x1b', state := .stateEscape }, true, none) := by
  simp [parseOne, hs, hp]

theorem parseOne_none_lit (ei : escapeInterpreter) (c : Char)
    (hs : ei.state = .stateNone) (hp : ei.csiParam = []) (hc : c ≠ '\x1b') :
    parseOne ei c = some ({ ei with curch := c }, false, none) := by
  simp [parseOne, hs, hp, hc]

theorem parseOne_escape_lb (ei : escapeInterpreter)
    (hs : ei.state = .stateEscape) (hp : ei.csiParam = []) :
    parseOne ei '[' = some ({ ei with curch := '[', state := .stateCSI }, true, none) := by
  simp [parseOne, hs, hp]

theorem parseOne_escape_other (ei : escapeInterpreter) (c : Char)
    (hs : ei.state = .stateEscape) (hp : ei.csiParam = []) (hc : c ≠ '[') :
    parseOne ei c = some ({ ei with curch := c }, false, some .errNotCSI) := by
  simp [parseOne, hs, hp, hc]

theorem parseOne_csi_digit (ei : escapeInterpreter) (c : Char)
    (hs : ei.state = .stateCSI) (hp : ei.csiParam = [])
    (hc : '0' ≤ c ∧ c ≤ '9') :
    parseOne ei c =
      some ({ ei with curch := c, state := .stateParams, csiParam := [[c]] }, true, none) := by
  have hne : c ≠ ';' := by
    intro h
    subst h
    exact absurd hc.2 (by decide)
  simp [parseOne, parseParams, hs, hp, hc, hne]

theorem parseOne_csi_qm (ei : escapeInterpreter)
    (hs : ei.state = .stateCSI) (hp : ei.csiParam = []) :
    parseOne ei '?' =
      some ({ ei with curch := '?', state := .stateParams, csiParam := [['?']] }, true, none) := by
  simp [parseOne, parseParams, hs, hp]

theorem parseOne_csi_m_normal (ei : escapeInterpreter)
    (hs : ei.state = .stateCSI) (hp : ei.csiParam = []) (hm : ei.mode = .OutputNormal) :
    parseOne ei 'm' =
      some ({ ei with
          curch := 'm', state := .stateNone, csiParam := [],
          curFgColor := ColorDefault, curBgColor := ColorDefault }, true, none) := by
  simp [parseOne, parseParams, hs, hp, hm, outputNormal, outputNormalGo, goAtoi, applySGR,
    ColorDefault]

theorem parseOne_csi_m_256 (ei : escapeInterpreter)
    (hs : ei.state = .stateCSI) (hp : ei.csiParam = []) (hm : ei.mode = .Output256) :
    parseOne ei 'm' = none := by
  simp [parseOne, parseParams, hs, hp, hm, output256]

theorem parseOne_csi_K (ei : escapeInterpreter)
    (hs : ei.state = .stateCSI) (hp : ei.csiParam = []) :
    parseOne ei 'K' =
      some ({ ei with
          curch := 'K',
          instruction := { ei.instruction with kind := ERASE_TO_END_OF_LINE },
          state := .stateNone, csiParam := [] }, true, none) := by
  simp [parseOne, hs, hp]

theorem parseOne_csi_other (ei : escapeInterpreter) (c : Char)
    (hs : ei.state = .stateCSI) (hp : ei.csiParam = [])
    (hc1 : ¬('0' ≤ c ∧ c ≤ '9')) (hc2 : c ≠ 'm') (hc3 : c ≠ 'K') (hc4 : c ≠ '?') :
    parseOne ei c = some ({ ei with curch := c }, false, some .errCSIParseError) := by
  simp [parseOne, hs, hp, hc1, hc2, hc3, hc4]

theorem parseOne_params_digit (ei : escapeInterpreter) (c : Char)
    (hs : ei.state = .stateParams)
    (h20 : ¬ 20 < ei.csiParam.length)
    (h255 : ¬ (0 < ei.csiParam.length ∧ 255 < (ei.csiParam.getLastD []).length))
    (hc : ('0' ≤ c ∧ c ≤ '9') ∨ c = '?') :
    parseOne ei c =
      some ({ ei with
          curch := c,
          csiParam := ei.csiParam.dropLast ++ [ei.csiParam.getLastD [] ++ [c]] },
        true, none) := by
  have h255n : ¬ (0 < ei.csiParam.length ∧ 255 < (ei.csiParam.getLast?.getD []).length) := by
    simpa using h255
  simp [parseOne, parseParams, hs, h20, h255n, hc]

theorem parseOne_params_semi (ei : escapeInterpreter)
    (hs : ei.state = .stateParams)
    (h20 : ¬ 20 < ei.csiParam.length)
    (h255 : ¬ (0 < ei.csiParam.length ∧ 255 < (ei.csiParam.getLastD []).length)) :
    parseOne ei ';' =
      some ({ ei with curch := ';', csiParam := ei.csiParam ++ [[]] }, true, none) := by
  have h255n : ¬ (0 < ei.csiParam.length ∧ 255 < (ei.csiParam.getLast?.getD []).length) := by
    simpa using h255
  simp [parseOne, parseParams, hs, h20, h255n]

theorem parseOne_params_m_normal (ei : escapeInterpreter)
    (hs : ei.state = .stateParams)
    (h20 : ¬ 20 < ei.csiParam.length)
    (h255 : ¬ (0 < ei.csiParam.length ∧ 255 < (ei.csiParam.getLastD []).length))
    (hm : ei.mode = .OutputNormal) :
    parseOne ei 'm' =
      (match outputNormalGo ei.csiParam { ei with curch := 'm' } with
      | (ei2, some _) => some (ei2, false, some .errCSIParseError)
      | (ei2, none) => some ({ ei2 with state := .stateNone, csiParam := [] }, true, none)) := by
  have h255n : ¬ (0 < ei.csiParam.length ∧ 255 < (ei.csiParam.getLast?.getD []).length) := by
    simpa using h255
  simp [parseOne, parseParams, hs, h20, h255n, hm, outputNormal]

theorem parseOne_params_m_256 (ei : escapeInterpreter)
    (hs : ei.state = .stateParams)
    (h20 : ¬ 20 < ei.csiParam.length)
    (h255 : ¬ (0 < ei.csiParam.length ∧ 255 < (ei.csiParam.getLastD []).length))
    (hm : ei.mode = .Output256) :
    parseOne ei 'm' = none := by
  have h255n : ¬ (0 < ei.csiParam.length ∧ 255 < (ei.csiParam.getLast?.getD []).length) := by
    simpa using h255
  simp [parseOne, parseParams, hs, h20, h255n, hm, output256]

theorem parseOne_params_dir (ei : escapeInterpreter) (c : Char) (n : Int)
    (hs : ei.state = .stateParams)
    (h20 : ¬ 20 < ei.csiParam.length)
    (h255 : ¬ (0 < ei.csiParam.length ∧ 255 < (ei.csiParam.getLastD []).length))
    (hc : c = 'A' ∨ c = 'B' ∨ c = 'C' ∨ c = 'D')
    (hA : goAtoi (ei.csiParam.getD 0 []) = some n) :
    parseOne ei c =
      some ({ ei with
          curch := c,
          instruction := { ei.instruction with kind := directionMap c, param1 := n },
          state := .stateNone, csiParam := [] }, true, none) := by
  have hd : ¬ (('0' ≤ c ∧ c ≤ '9') ∨ c = '?') := by
    rcases hc with h | h | h | h <;> subst h <;> decide
  have hsemi : c ≠ ';' := by
    rcases hc with h | h | h | h <;> subst h <;> decide
  have hm : c ≠ 'm' := by
    rcases hc with h | h | h | h <;> subst h <;> decide
  have h255n : ¬ (0 < ei.csiParam.length ∧ 255 < (ei.csiParam.getLast?.getD []).length) := by
    simpa using h255
  have hAn : goAtoi (ei.csiParam[0]?.getD []) = some n := by
    simpa using hA
  simp [parseOne, parseParams, hs, h20, h255n, hd, hsemi, hm, hc, hAn]

theorem parseOne_params_dir_err (ei : escapeInterpreter) (c : Char)
    (hs : ei.state = .stateParams)
    (h20 : ¬ 20 < ei.csiParam.length)
    (h255 : ¬ (0 < ei.csiParam.length ∧ 255 < (ei.csiParam.getLastD []).length))
    (hc : c = 'A' ∨ c = 'B' ∨ c = 'C' ∨ c = 'D')
    (hA : goAtoi (ei.csiParam.getD 0 []) = none) :
    parseOne ei c = some ({ ei with curch := c }, false, some .errCSIParseError) := by
  have hd : ¬ (('0' ≤ c ∧ c ≤ '9') ∨ c = '?') := by
    rcases hc with h | h | h | h <;> subst h <;> decide
  have hsemi : c ≠ ';' := by
    rcases hc with h | h | h | h <;> subst h <;> decide
  have hm : c ≠ 'm' := by
    rcases hc with h | h | h | h <;> subst h <;> decide
  have h255n : ¬ (0 < ei.csiParam.length ∧ 255 < (ei.csiParam.getLast?.getD []).length) := by
    simpa using h255
  have hAn : goAtoi (ei.csiParam[0]?.getD []) = none := by
    simpa using hA
  simp [parseOne, parseParams, hs, h20, h255n, hd, hsemi, hm, hc, hAn]

theorem parseOne_params_J (ei : escapeInterpreter)
    (hs : ei.state = .stateParams)
    (h20 : ¬ 20 < ei.csiParam.length)
    (h255 : ¬ (0 < ei.csiParam.length ∧ 255 < (ei.csiParam.getLastD []).length)) :
    parseOne ei 'J' =
      some ({ ei with
          curch := 'J',
          instruction := { ei.instruction with kind := CLEAR_SCREEN },
          state := .stateNone, csiParam := [] }, true, none) := by
  have h255n : ¬ (0 < ei.csiParam.length ∧ 255 < (ei.csiParam.getLast?.getD []).length) := by
    simpa using h255
  simp [parseOne, parseParams, hs, h20, h255n]

theorem parseOne_params_hl_ok (ei : escapeInterpreter) (c : Char)
    (hs : ei.state = .stateParams)
    (h20 : ¬ 20 < ei.csiParam.length)
    (h255 : ¬ (0 < ei.csiParam.length ∧ 255 < (ei.csiParam.getLastD []).length))
    (hc : c = 'h' ∨ c = 'l')
    (hq : ei.csiParam.getD 0 [] = ['?', '2', '5']) :
    parseOne ei c =
      some ({ ei with curch := c, state := .stateNone, csiParam := [] }, true, none) := by
  have h255n : ¬ (0 < ei.csiParam.length ∧ 255 < (ei.csiParam.getLast?.getD []).length) := by
    simpa using h255
  have hqn : ei.csiParam[0]?.getD [] = ['?', '2', '5'] := by
    simpa using hq
  rcases hc with h | h <;> subst h <;>
    simp [parseOne, parseParams, hs, h20, h255n, hqn]

theorem parseOne_params_hl_err (ei : escapeInterpreter) (c : Char)
    (hs : ei.state = .stateParams)
    (h20 : ¬ 20 < ei.csiParam.length)
    (h255 : ¬ (0 < ei.csiParam.length ∧ 255 < (ei.csiParam.getLastD []).length))
    (hc : c = 'h' ∨ c = 'l')
    (hq : ei.csiParam.getD 0 [] ≠ ['?', '2', '5']) :
    parseOne ei c = some ({ ei with curch := c }, false, some .errCSIParseError) := by
  have h255n : ¬ (0 < ei.csiParam.length ∧ 255 < (ei.csiParam.getLast?.getD []).length) := by
    simpa using h255
  have hqn : ei.csiParam[0]?.getD [] ≠ ['?', '2', '5'] := by
    simpa using hq
  rcases hc with h | h <;> subst h <;>
    simp [parseOne, parseParams, hs, h20, h255n, hqn]

theorem parseOne_params_other (ei : escapeInterpreter) (c : Char)
    (hs : ei.state = .stateParams)
    (h20 : ¬ 20 < ei.csiParam.length)
    (h255 : ¬ (0 < ei.csiParam.length ∧ 255 < (ei.csiParam.getLastD []).length))
    (hc1 : ¬ (('0' ≤ c ∧ c ≤ '9') ∨ c = '?')) (hc2 : c ≠ ';') (hc3 : c ≠ 'm')
    (hc4 : ¬ (c = 'A' ∨ c = 'B' ∨ c = 'C' ∨ c = 'D')) (hc5 : c ≠ 'J')
    (hc6 : c ≠ 'h') (hc7 : c ≠ 'l') :
    parseOne ei c = some ({ ei with curch := c }, false, some .errCSIParseError) := by
  have h255n : ¬ (0 < ei.csiParam.length ∧ 255 < (ei.csiParam.getLast?.getD []).length) := by
    simpa using h255
  simp [parseOne, parseParams, hs, h20, h255n, hc1, hc2, hc3, hc4, hc5, hc6, hc7]

theorem parseOne_tooLong (ei : escapeInterpreter) (c : Char)
    (h : 20 < ei.csiParam.length ∨
      (0 < ei.csiParam.length ∧ 255 < (ei.csiParam.getLastD []).length)) :
    parseOne ei c = some (ei, false, some .errCSITooLong) := by
  rcases h with h | h
  · simp [parseOne, h]
  · rcases Classical.em (20 < ei.csiParam.length) with h20 | h20
    · simp [parseOne, h20]
    · have hn : 0 < ei.csiParam.length ∧ 255 < (ei.csiParam.getLast?.getD []).length := by
        simpa using h
      simp [parseOne, h20, hn]

theorem Inv_init (mode : OutputMode) : Inv (newEscapeInterpreter mode) [] := by
  simp [Inv, newEscapeInterpreter]

theorem Inv_step (ei : escapeInterpreter) (buf : List Char) (c : Char)
    (ei2 : escapeInterpreter) (f : Bool)
    (hInv : Inv ei buf) (hstep : parseOne ei c = some (ei2, f, none)) :
    Inv ei2 (if ei2.state = .stateNone then [] else buf ++ [c]) := by
  cases hs : ei.state with
  | stateNone =>
    simp only [Inv, hs] at hInv
    obtain ⟨hb, hp⟩ := hInv
    by_cases hc : c = '\x1b'
    · subst hc
      rw [parseOne_none_esc ei hs hp] at hstep
      simp only [Option.some.injEq, Prod.mk.injEq] at hstep
      obtain ⟨h1, -, -⟩ := hstep
      subst h1
      simp [Inv, hb, hp]
    · rw [parseOne_none_lit ei c hs hp hc] at hstep
      simp only [Option.some.injEq, Prod.mk.injEq] at hstep
      obtain ⟨h1, -, -⟩ := hstep
      subst h1
      simp [Inv, hs, hb, hp]
  | stateEscape =>
    simp only [Inv, hs] at hInv
    obtain ⟨hb, hp⟩ := hInv
    by_cases hc : c = '['
    · subst hc
      rw [parseOne_escape_lb ei hs hp] at hstep
      simp only [Option.some.injEq, Prod.mk.injEq] at hstep
      obtain ⟨h1, -, -⟩ := hstep
      subst h1
      simp [Inv, hb, hp]
    · rw [parseOne_escape_other ei c hs hp hc] at hstep
      simp at hstep
  | stateCSI =>
    simp only [Inv, hs] at hInv
    obtain ⟨hb, hp⟩ := hInv
    by_cases hc1 : '0' ≤ c ∧ c ≤ '9'
    · rw [parseOne_csi_digit ei c hs hp hc1] at hstep
      simp only [Option.some.injEq, Prod.mk.injEq] at hstep
      obtain ⟨h1, -, -⟩ := hstep
      subst h1
      have hcs : c ≠ ';' := by
        intro h
        subst h
        exact absurd hc1.2 (by decide)
      simp [Inv, hb, paramChars_singleton, hcs]
    by_cases hc2 : c = 'm'
    · subst hc2
      cases hmode : ei.mode with
      | OutputNormal =>
        rw [parseOne_csi_m_normal ei hs hp hmode] at hstep
        simp only [Option.some.injEq, Prod.mk.injEq] at hstep
        obtain ⟨h1, -, -⟩ := hstep
        subst h1
        simp [Inv]
      | Output256 =>
        rw [parseOne_csi_m_256 ei hs hp hmode] at hstep
        simp at hstep
    by_cases hc3 : c = 'K'
    · subst hc3
      rw [parseOne_csi_K ei hs hp] at hstep
      simp only [Option.some.injEq, Prod.mk.injEq] at hstep
      obtain ⟨h1, -, -⟩ := hstep
      subst h1
      simp [Inv]
    by_cases hc4 : c = '?'
    · subst hc4
      rw [parseOne_csi_qm ei hs hp] at hstep
      simp only [Option.some.injEq, Prod.mk.injEq] at hstep
      obtain ⟨h1, -, -⟩ := hstep
      subst h1
      simp [Inv, hb, paramChars_singleton]
    · rw [parseOne_csi_other ei c hs hp hc1 hc2 hc3 hc4] at hstep
      simp at hstep
  | stateParams =>
    simp only [Inv, hs] at hInv
    obtain ⟨hbuf, hne⟩ := hInv
    by_cases h20 : 20 < ei.csiParam.length
    · rw [parseOne_tooLong ei c (Or.inl h20)] at hstep
      simp at hstep
    by_cases h255 : 0 < ei.csiParam.length ∧ 255 < (ei.csiParam.getLastD []).length
    · rw [parseOne_tooLong ei c (Or.inr h255)] at hstep
      simp at hstep
    by_cases hc1 : ('0' ≤ c ∧ c ≤ '9') ∨ c = '?'
    · rw [parseOne_params_digit ei c hs h20 h255 hc1] at hstep
      simp only [Option.some.injEq, Prod.mk.injEq] at hstep
      obtain ⟨h1, -, -⟩ := hstep
      subst h1
      have hfil : List.filter (fun x => x != ';') (buf ++ [c]) =
          List.filter (fun x => x != ';') buf ++ [c] := by
        rw [List.filter_append]
        simp [List.filter, digit_ne_semi hc1]
      simp only [Inv, hs]
      refine ⟨?_, by simp⟩
      simpa [hfil, hbuf] using (paramChars_update_last ei.csiParam hne c).symm
    by_cases hc2 : c = ';'
    · subst hc2
      rw [parseOne_params_semi ei hs h20 h255] at hstep
      simp only [Option.some.injEq, Prod.mk.injEq] at hstep
      obtain ⟨h1, -, -⟩ := hstep
      subst h1
      have hfil : List.filter (fun x => x != ';') (buf ++ [';']) =
          List.filter (fun x => x != ';') buf := by
        rw [List.filter_append]
        simp [List.filter]
      simp [Inv, hs, hfil, hbuf, paramChars_append, paramChars_singleton]
    by_cases hc3 : c = 'm'
    · subst hc3
      cases hmode : ei.mode with
      | OutputNormal =>
        rw [parseOne_params_m_normal ei hs h20 h255 hmode] at hstep
        rcases hout : outputNormalGo ei.csiParam { ei with curch := 'm' } with ⟨ei3, e3⟩
        rw [hout] at hstep
        cases e3 with
        | some e => simp at hstep
        | none =>
          simp only [Option.some.injEq, Prod.mk.injEq] at hstep
          obtain ⟨h1, -, -⟩ := hstep
          subst h1
          simp [Inv]
      | Output256 =>
        rw [parseOne_params_m_256 ei hs h20 h255 hmode] at hstep
        simp at hstep
    by_cases hc4 : c = 'A' ∨ c = 'B' ∨ c = 'C' ∨ c = 'D'
    · rcases hA : goAtoi (ei.csiParam.getD 0 []) with _ | n
      · rw [parseOne_params_dir_err ei c hs h20 h255 hc4 hA] at hstep
        simp at hstep
      · rw [parseOne_params_dir ei c n hs h20 h255 hc4 hA] at hstep
        simp only [Option.some.injEq, Prod.mk.injEq] at hstep
        obtain ⟨h1, -, -⟩ := hstep
        subst h1
        simp [Inv]
    by_cases hc5 : c = 'J'
    · subst hc5
      rw [parseOne_params_J ei hs h20 h255] at hstep
      simp only [Option.some.injEq, Prod.mk.injEq] at hstep
      obtain ⟨h1, -, -⟩ := hstep
      subst h1
      simp [Inv]
    by_cases hc6 : c = 'h' ∨ c = 'l'
    · by_cases hq : ei.csiParam.getD 0 [] = ['?', '2', '5']
      · rw [parseOne_params_hl_ok ei c hs h20 h255 hc6 hq] at hstep
        simp only [Option.some.injEq, Prod.mk.injEq] at hstep
        obtain ⟨h1, -, -⟩ := hstep
        subst h1
        simp [Inv]
      · rw [parseOne_params_hl_err ei c hs h20 h255 hc6 hq] at hstep
        simp at hstep
    · have hch : c ≠ 'h' := fun h => hc6 (Or.inl h)
      have hcl : c ≠ 'l' := fun h => hc6 (Or.inr h)
      rw [parseOne_params_other ei c hs h20 h255 hc1 hc2 hc3 hc4 hc5 hch hcl] at hstep
      simp at hstep

theorem Inv_feed (cs : List Char) (ei : escapeInterpreter) (buf : List Char)
    (ei2 : escapeInterpreter) (buf2 : List Char)
    (hfeed : feedNoErr (ei, buf) cs = some (ei2, buf2)) (hInv : Inv ei buf) :
    Inv ei2 buf2 := by
  induction cs generalizing ei buf with
  | nil =>
    simp only [feedNoErr, Option.some.injEq, Prod.mk.injEq] at hfeed
    obtain ⟨h1, h2⟩ := hfeed
    subst h1
    subst h2
    exact hInv
  | cons c cs ih =>
    simp only [feedNoErr] at hfeed
    rcases hp : parseOne ei c with _ | ⟨ei3, f, e⟩
    · rw [hp] at hfeed
      simp at hfeed
    · rw [hp] at hfeed
      cases e with
      | some err => simp at hfeed
      | none =>
        simp only at hfeed
        exact ih ei3 _ hfeed (Inv_step ei buf c ei3 f hInv hp)

theorem parseOne_none_esc_g (ei : escapeInterpreter)
    (hs : ei.state = .stateNone)
    (h20 : ¬ 20 < ei.csiParam.length)
    (h255 : ¬ (0 < ei.csiParam.length ∧ 255 < (ei.csiParam.getLastD []).length)) :
    parseOne ei '\x1b' = some ({ ei with curch := '\x1b', state := .stateEscape }, true, none) := by
  have h255n : ¬ (0 < ei.csiParam.length ∧ 255 < (ei.csiParam.getLast?.getD []).length) := by
    simpa using h255
  simp [parseOne, hs, h20, h255n]

theorem parseOne_none_lit_g (ei : escapeInterpreter) (c : Char)
    (hs : ei.state = .stateNone)
    (h20 : ¬ 20 < ei.csiParam.length)
    (h255 : ¬ (0 < ei.csiParam.length ∧ 255 < (ei.csiParam.getLastD []).length))
    (hc : c ≠ '\x1b') :
    parseOne ei c = some ({ ei with curch := c }, false, none) := by
  have h255n : ¬ (0 < ei.csiParam.length ∧ 255 < (ei.csiParam.getLast?.getD []).length) := by
    simpa using h255
  simp [parseOne, hs, h20, h255n, hc]

theorem parseOne_escape_lb_g (ei : escapeInterpreter)
    (hs : ei.state = .stateEscape)
    (h20 : ¬ 20 < ei.csiParam.length)
    (h255 : ¬ (0 < ei.csiParam.length ∧ 255 < (ei.csiParam.getLastD []).length)) :
    parseOne ei '[' = some ({ ei with curch := '[', state := .stateCSI }, true, none) := by
  have h255n : ¬ (0 < ei.csiParam.length ∧ 255 < (ei.csiParam.getLast?.getD []).length) := by
    simpa using h255
  simp [parseOne, hs, h20, h255n]

theorem parseOne_escape_other_g (ei : escapeInterpreter) (c : Char)
    (hs : ei.state = .stateEscape)
    (h20 : ¬ 20 < ei.csiParam.length)
    (h255 : ¬ (0 < ei.csiParam.length ∧ 255 < (ei.csiParam.getLastD []).length))
    (hc : c ≠ '[') :
    parseOne ei c = some ({ ei with curch := c }, false, some .errNotCSI) := by
  have h255n : ¬ (0 < ei.csiParam.length ∧ 255 < (ei.csiParam.getLast?.getD []).length) := by
    simpa using h255
  simp [parseOne, hs, h20, h255n, hc]

theorem parseOne_csi_digit_g (ei : escapeInterpreter) (c : Char)
    (hs : ei.state = .stateCSI)
    (h20 : ¬ 20 < ei.csiParam.length)
    (h255 : ¬ (0 < ei.csiParam.length ∧ 255 < (ei.csiParam.getLastD []).length))
    (hc : '0' ≤ c ∧ c ≤ '9') :
    parseOne ei c =
      some ({ ei with
          curch := c, state := .stateParams,
          csiParam := ei.csiParam ++ [[c]] }, true, none) := by
  have h255n : ¬ (0 < ei.csiParam.length ∧ 255 < (ei.csiParam.getLast?.getD []).length) := by
    simpa using h255
  simp [parseOne, parseParams, hs, h20, h255n, hc, List.getLastD_concat]

theorem parseOne_csi_qm_g (ei : escapeInterpreter)
    (hs : ei.state = .stateCSI)
    (h20 : ¬ 20 < ei.csiParam.length)
    (h255 : ¬ (0 < ei.csiParam.length ∧ 255 < (ei.csiParam.getLastD []).length)) :
    parseOne ei '?' =
      some ({ ei with
          curch := '?', state := .stateParams,
          csiParam := ei.csiParam ++ [['?']] }, true, none) := by
  have h255n : ¬ (0 < ei.csiParam.length ∧ 255 < (ei.csiParam.getLast?.getD []).length) := by
    simpa using h255
  simp [parseOne, parseParams, hs, h20, h255n, List.getLastD_concat]

theorem parseOne_csi_m_normal_g (ei : escapeInterpreter)
    (hs : ei.state = .stateCSI)
    (h20 : ¬ 20 < ei.csiParam.length)
    (h255 : ¬ (0 < ei.csiParam.length ∧ 255 < (ei.csiParam.getLastD []).length))
    (hm : ei.mode = .OutputNormal) :
    parseOne ei 'm' =
      (match outputNormalGo (ei.csiParam ++ [['0']])
          { ei with curch := 'm', state := .stateParams, csiParam := ei.csiParam ++ [['0']] } with
      | (ei2, some _) => some (ei2, false, some .errCSIParseError)
      | (ei2, none) => some ({ ei2 with state := .stateNone, csiParam := [] }, true, none)) := by
  have h255n : ¬ (0 < ei.csiParam.length ∧ 255 < (ei.csiParam.getLast?.getD []).length) := by
    simpa using h255
  simp [parseOne, parseParams, hs, h20, h255n, hm, outputNormal]

theorem parseOne_csi_m_256_g (ei : escapeInterpreter)
    (hs : ei.state = .stateCSI)
    (h20 : ¬ 20 < ei.csiParam.length)
    (h255 : ¬ (0 < ei.csiParam.length ∧ 255 < (ei.csiParam.getLastD []).length))
    (hm : ei.mode = .Output256) :
    parseOne ei 'm' = none := by
  have h255n : ¬ (0 < ei.csiParam.length ∧ 255 < (ei.csiParam.getLast?.getD []).length) := by
    simpa using h255
  simp [parseOne, parseParams, hs, h20, h255n, hm, output256]

theorem parseOne_csi_K_g (ei : escapeInterpreter)
    (hs : ei.state = .stateCSI)
    (h20 : ¬ 20 < ei.csiParam.length)
    (h255 : ¬ (0 < ei.csiParam.length ∧ 255 < (ei.csiParam.getLastD []).length)) :
    parseOne ei 'K' =
      some ({ ei with
          curch := 'K',
          instruction := { ei.instruction with kind := ERASE_TO_END_OF_LINE },
          state := .stateNone, csiParam := [] }, true, none) := by
  have h255n : ¬ (0 < ei.csiParam.length ∧ 255 < (ei.csiParam.getLast?.getD []).length) := by
    simpa using h255
  simp [parseOne, hs, h20, h255n]

theorem parseOne_csi_other_g (ei : escapeInterpreter) (c : Char)
    (hs : ei.state = .stateCSI)
    (h20 : ¬ 20 < ei.csiParam.length)
    (h255 : ¬ (0 < ei.csiParam.length ∧ 255 < (ei.csiParam.getLastD []).length))
    (hc1 : ¬ ('0' ≤ c ∧ c ≤ '9')) (hc2 : c ≠ 'm') (hc3 : c ≠ 'K') (hc4 : c ≠ '?') :
    parseOne ei c = some ({ ei with curch := c }, false, some .errCSIParseError) := by
  have h255n : ¬ (0 < ei.csiParam.length ∧ 255 < (ei.csiParam.getLast?.getD []).length) := by
    simpa using h255
  simp [parseOne, hs, h20, h255n, hc1, hc2, hc3, hc4]

/-- Everything `parseOne` can do to the instruction latch: either it leaves
it untouched, or it sets the kind to one of the cursor moves, `CLEAR_SCREEN`
or `ERASE_TO_END_OF_LINE` — never back to `NONE`. -/
theorem parseOne_instr_cases (ei : escapeInterpreter) (c : Char) (r : escapeInterpreter)
    (f : Bool) (e : Option GoErr) (hstep : parseOne ei c = some (r, f, e)) :
    r.instruction = ei.instruction ∨
      r.instruction.kind = CURSOR_UP ∨ r.instruction.kind = CURSOR_DOWN ∨
      r.instruction.kind = CURSOR_LEFT ∨ r.instruction.kind = CURSOR_RIGHT ∨
      r.instruction.kind = CLEAR_SCREEN ∨ r.instruction.kind = ERASE_TO_END_OF_LINE := by
  by_cases h20 : 20 < ei.csiParam.length
  · rw [parseOne_tooLong ei c (Or.inl h20)] at hstep
    simp only [Option.some.injEq, Prod.mk.injEq] at hstep
    obtain ⟨h1, -, -⟩ := hstep
    subst h1
    exact Or.inl rfl
  by_cases h255 : 0 < ei.csiParam.length ∧ 255 < (ei.csiParam.getLastD []).length
  · rw [parseOne_tooLong ei c (Or.inr h255)] at hstep
    simp only [Option.some.injEq, Prod.mk.injEq] at hstep
    obtain ⟨h1, -, -⟩ := hstep
    subst h1
    exact Or.inl rfl
  cases hs : ei.state with
  | stateNone =>
    by_cases hc : c = '\x1b'
    · subst hc
      rw [parseOne_none_esc_g ei hs h20 h255] at hstep
      simp only [Option.some.injEq, Prod.mk.injEq] at hstep
      obtain ⟨h1, -, -⟩ := hstep
      subst h1
      exact Or.inl rfl
    · rw [parseOne_none_lit_g ei c hs h20 h255 hc] at hstep
      simp only [Option.some.injEq, Prod.mk.injEq] at hstep
      obtain ⟨h1, -, -⟩ := hstep
      subst h1
      exact Or.inl rfl
  | stateEscape =>
    by_cases hc : c = '['
    · subst hc
      rw [parseOne_escape_lb_g ei hs h20 h255] at hstep
      simp only [Option.some.injEq, Prod.mk.injEq] at hstep
      obtain ⟨h1, -, -⟩ := hstep
      subst h1
      exact Or.inl rfl
    · rw [parseOne_escape_other_g ei c hs h20 h255 hc] at hstep
      simp only [Option.some.injEq, Prod.mk.injEq] at hstep
      obtain ⟨h1, -, -⟩ := hstep
      subst h1
      exact Or.inl rfl
  | stateCSI =>
    by_cases hc1 : '0' ≤ c ∧ c ≤ '9'
    · rw [parseOne_csi_digit_g ei c hs h20 h255 hc1] at hstep
      simp only [Option.some.injEq, Prod.mk.injEq] at hstep
      obtain ⟨h1, -, -⟩ := hstep
      subst h1
      exact Or.inl rfl
    by_cases hc2 : c = 'm'
    · subst hc2
      cases hmode : ei.mode with
      | OutputNormal =>
        rw [parseOne_csi_m_normal_g ei hs h20 h255 hmode] at hstep
        rcases hout : outputNormalGo (ei.csiParam ++ [['0']]) { ei with curch := 'm', state := .stateParams, csiParam := ei.csiParam ++ [['0']] } with ⟨ei3, e3⟩
        rw [hout] at hstep
        have hfr := outputNormalGo_frame (ei.csiParam ++ [['0']]) { ei with curch := 'm', state := .stateParams, csiParam := ei.csiParam ++ [['0']] }
        rw [hout] at hfr
        cases e3 with
        | some e4 =>
          simp only [Option.some.injEq, Prod.mk.injEq] at hstep
          obtain ⟨h1, -, -⟩ := hstep
          subst h1
          exact Or.inl hfr.2.2.2
        | none =>
          simp only [Option.some.injEq, Prod.mk.injEq] at hstep
          obtain ⟨h1, -, -⟩ := hstep
          subst h1
          exact Or.inl hfr.2.2.2
      | Output256 =>
        rw [parseOne_csi_m_256_g ei hs h20 h255 hmode] at hstep
        simp at hstep
    by_cases hc3 : c = 'K'
    · subst hc3
      rw [parseOne_csi_K_g ei hs h20 h255] at hstep
      simp only [Option.some.injEq, Prod.mk.injEq] at hstep
      obtain ⟨h1, -, -⟩ := hstep
      subst h1
      simp [ERASE_TO_END_OF_LINE]
    by_cases hc4 : c = '?'
    · subst hc4
      rw [parseOne_csi_qm_g ei hs h20 h255] at hstep
      simp only [Option.some.injEq, Prod.mk.injEq] at hstep
      obtain ⟨h1, -, -⟩ := hstep
      subst h1
      exact Or.inl rfl
    · rw [parseOne_csi_other_g ei c hs h20 h255 hc1 hc2 hc3 hc4] at hstep
      simp only [Option.some.injEq, Prod.mk.injEq] at hstep
      obtain ⟨h1, -, -⟩ := hstep
      subst h1
      exact Or.inl rfl
  | stateParams =>
    by_cases hc1 : ('0' ≤ c ∧ c ≤ '9') ∨ c = '?'
    · rw [parseOne_params_digit ei c hs h20 h255 hc1] at hstep
      simp only [Option.some.injEq, Prod.mk.injEq] at hstep
      obtain ⟨h1, -, -⟩ := hstep
      subst h1
      exact Or.inl rfl
    by_cases hc2 : c = ';'
    · subst hc2
      rw [parseOne_params_semi ei hs h20 h255] at hstep
      simp only [Option.some.injEq, Prod.mk.injEq] at hstep
      obtain ⟨h1, -, -⟩ := hstep
      subst h1
      exact Or.inl rfl
    by_cases hc3 : c = 'm'
    · subst hc3
      cases hmode : ei.mode with
      | OutputNormal =>
        rw [parseOne_params_m_normal ei hs h20 h255 hmode] at hstep
        rcases hout : outputNormalGo ei.csiParam { ei with curch := 'm' } with ⟨ei3, e3⟩
        rw [hout] at hstep
        have hfr := outputNormalGo_frame ei.csiParam { ei with curch := 'm' }
        rw [hout] at hfr
        cases e3 with
        | some e4 =>
          simp only [Option.some.injEq, Prod.mk.injEq] at hstep
          obtain ⟨h1, -, -⟩ := hstep
          subst h1
          exact Or.inl hfr.2.2.2
        | none =>
          simp only [Option.some.injEq, Prod.mk.injEq] at hstep
          obtain ⟨h1, -, -⟩ := hstep
          subst h1
          exact Or.inl hfr.2.2.2
      | Output256 =>
        rw [parseOne_params_m_256 ei hs h20 h255 hmode] at hstep
        simp at hstep
    by_cases hc4 : c = 'A' ∨ c = 'B' ∨ c = 'C' ∨ c = 'D'
    · rcases hA : goAtoi (ei.csiParam.getD 0 []) with _ | n
      · rw [parseOne_params_dir_err ei c hs h20 h255 hc4 hA] at hstep
        simp only [Option.some.injEq, Prod.mk.injEq] at hstep
        obtain ⟨h1, -, -⟩ := hstep
        subst h1
        exact Or.inl rfl
      · rw [parseOne_params_dir ei c n hs h20 h255 hc4 hA] at hstep
        simp only [Option.some.injEq, Prod.mk.injEq] at hstep
        obtain ⟨h1, -, -⟩ := hstep
        subst h1
        rcases hc4 with h | h | h | h <;> subst h <;>
          simp [directionMap, CURSOR_UP, CURSOR_DOWN, CURSOR_LEFT, CURSOR_RIGHT]
    by_cases hc5 : c = 'J'
    · subst hc5
      rw [parseOne_params_J ei hs h20 h255] at hstep
      simp only [Option.some.injEq, Prod.mk.injEq] at hstep
      obtain ⟨h1, -, -⟩ := hstep
      subst h1
      simp [CLEAR_SCREEN]
    by_cases hc6 : c = 'h' ∨ c = 'l'
    · by_cases hq : ei.csiParam.getD 0 [] = ['?', '2', '5']
      · rw [parseOne_params_hl_ok ei c hs h20 h255 hc6 hq] at hstep
        simp only [Option.some.injEq, Prod.mk.injEq] at hstep
        obtain ⟨h1, -, -⟩ := hstep
        subst h1
        exact Or.inl rfl
      · rw [parseOne_params_hl_err ei c hs h20 h255 hc6 hq] at hstep
        simp only [Option.some.injEq, Prod.mk.injEq] at hstep
        obtain ⟨h1, -, -⟩ := hstep
        subst h1
        exact Or.inl rfl
    · have hch : c ≠ 'h' := fun h => hc6 (Or.inl h)
      have hcl : c ≠ 'l' := fun h => hc6 (Or.inr h)
      rw [parseOne_params_other ei c hs h20 h255 hc1 hc2 hc3 hc4 hc5 hch hcl] at hstep
      simp only [Option.some.injEq, Prod.mk.injEq] at hstep
      obtain ⟨h1, -, -⟩ := hstep
      subst h1
      exact Or.inl rfl

/-- Claim C2 (refuted — code bug): the claim says every `parseOne` call
returns synchronously in both modes, in particular when feeding the `m`
terminator in Extended (256-color) mode. In the code, `parseOne` holds
`ei.mutex` for the whole call and `output256` starts by locking the same
non-reentrant `sync.Mutex` again, so that call never returns. Evaluated at
the concrete reachable state after feeding `ESC [ 3` in `Output256` mode
(an error-free prefix, witnessed by the second conjunct), feeding `m`
blocks forever (`none`). -/
theorem C2_deadlock :
    ((feedNoErr (newEscapeInterpreter .Output256, []) ['\x1b', '[', '3']).bind
      fun p => parseOne p.1 'm') = none ∧
    (feedNoErr (newEscapeInterpreter .Output256, []) ['\x1b', '[', '3']).isSome = true := by
  constructor
  · rfl
  · rfl

/-- Claim C8: for every prior interpreter state, `reset` yields `stateNone`
(Idle) with both colors set to the default and an empty parameter list (the
model is a total function, so no error is possible), and it is idempotent:
resetting twice gives the same interpreter as resetting once. -/
theorem C8_reset (ei : escapeInterpreter) :
    (reset ei).state = .stateNone ∧
      (reset ei).curFgColor = ColorDefault ∧
      (reset ei).curBgColor = ColorDefault ∧
      (reset ei).csiParam = [] ∧
      reset (reset ei) = reset ei := by
  simp [reset]

/-- Claim C10: `reset` leaves the instruction latch unchanged (an
instruction latched before `reset` and not yet cleared is still readable
after it); `instructionRead` sets the latch kind back to `NONE` and changes
no other interpreter field; and no `parseOne` step ever sets the latch kind
back to `NONE`, so only `instructionRead` clears the latch. -/
theorem C10_frame (ei : escapeInterpreter) :
    (reset ei).instruction = ei.instruction ∧
      instructionRead ei = { ei with instruction := { ei.instruction with kind := NONE } } ∧
      (∀ c r f e, parseOne ei c = some (r, f, e) →
        r.instruction.kind = NONE → ei.instruction.kind = NONE) := by
  refine ⟨rfl, rfl, ?_⟩
  intro c r f e hstep hk
  rcases parseOne_instr_cases ei c r f e hstep with h | h | h | h | h | h | h
  · rw [← h]
    exact hk
  all_goals (rw [hk] at h; exact absurd h (by decide))

/-- Witness for claim C10 at the fresh interpreter `c10ei` and the feed of
a literal character. -/
theorem C10_frame_witness :
    (reset c10ei).instruction = c10ei.instruction ∧ c10ei.instruction.kind = NONE :=
  ⟨(C10_frame c10ei).1,
    (C10_frame c10ei).2.2 'Q' { c10ei with curch := 'Q' } false none (by decide) (by decide)⟩

/-- Claim C1, counterexample: feed `ESC [ 1 ; 2` (all consumed, no error)
from a fresh Basic-mode interpreter, then feed `x`, which returns
`errCSIParseError`. The raw characters consumed since the last Idle state
plus the error character are `ESC [ 1 ; 2 x`, but `runes` returns
`ESC [ 1 2 x`: the `;` separator fed between the parameters is lost, so
re-feeding the returned characters does not reproduce the original
input. -/
theorem C1_counterexample :
    ((feedNoErr (newEscapeInterpreter .OutputNormal, []) ['\x1b', '[', '1', ';', '2']).bind
        fun p => (parseOne p.1 'x').map fun q => (q.2.2, runes q.1, p.2)) =
      some (some .errCSIParseError, ['\x1b', '[', '1', '2', 'x'],
        ['\x1b', '[', '1', ';', '2']) ∧
      (['\x1b', '[', '1', '2', 'x'] : List Char) ≠ ['\x1b', '[', '1', ';', '2'] ++ ['x'] := by
  constructor
  · rfl
  · decide

/-- Claim C3, counterexample: feeding `ESC [ 0` and then twenty `;`
characters from a fresh interpreter produces no error on any call — in
particular the feed that raises the parameter count from 20 to 21 succeeds —
and leaves the stored parameter list holding 21 parameters. -/
theorem C3_counterexample :
    ((feedNoErr (newEscapeInterpreter .OutputNormal, [])
        (['\x1b', '[', '0'] ++ List.replicate 20 ';')).map
      fun p => p.1.csiParam.length) = some 21 := by
  rfl

/-- Claim C4, counterexample: feed `ESC [ ? 2 5 ; 3` (no error), so that
the parameter list is `?25`, `3` — not solely `?25` — and then feed `h`:
the code accepts it (`consumed = true`, no error, back to Idle with empty
parameters) because it checks only the first parameter, while the claim
demands `errCSIParseError` whenever the list is not exactly the single
parameter `?25`. -/
theorem C4_counterexample :
    ((feedNoErr (newEscapeInterpreter .OutputNormal, [])
        ['\x1b', '[', '?', '2', '5', ';', '3']).bind
      fun p => (parseOne p.1 'h').map fun q => (q.2.1, q.2.2, q.1.state, q.1.csiParam)) =
      some (true, none, .stateNone, []) := by
  rfl

/-- Claim C5, counterexample: on the parameter list `31`, `?5`, `0` (three
parameters whose second is the non-numeric string `?5`, hence does not
equal 5) the Extended resolver body returns `errCSIParseError` leaving the
foreground untouched, whereas the Basic strategy on the same state applies
the `31` (foreground slot 2) before failing — so the Extended resolver does
not "apply exactly the Basic strategy" for a second parameter that does not
equal 5. -/
theorem C5_counterexample :
    output256Body c5ei = (c5ei, some .errCSIParseError) ∧
      outputNormal c5ei = ({ c5ei with curFgColor := 2 }, some .errCSIParseError) ∧
      (output256Body c5ei).1.curFgColor = 0 ∧
      (outputNormal c5ei).1.curFgColor = 2 := by
  refine ⟨rfl, rfl, rfl, rfl⟩

/-- Claim C9, counterexample: feed `ESC [ ? ; 3 1 ; ?` (no error), so the
parameter list is `?`, `31`, `?` — it contains the valid recognized color
parameter `31` followed by the non-numeric parameter `?`. Feeding `m`
returns `errCSIParseError` with the state left in `stateParams` and the
list retained, as the claim says, but the foreground is still the default
(0), not 2: the `31` was never applied, because the resolver stopped at the
earlier non-numeric `?`. -/
theorem C9_counterexample :
    ((feedNoErr (newEscapeInterpreter .OutputNormal, [])
        ['\x1b', '[', '?', ';', '3', '1', ';', '?']).bind
      fun p => (parseOne p.1 'm').map
        fun q => (q.2.2, q.1.state, q.1.csiParam, q.1.curFgColor)) =
      some (some .errCSIParseError, .stateParams, [['?'], ['3', '1'], ['?']], 0) ∧
      (0 : Attribute) ≠ 2 := by
  constructor
  · rfl
  · decide

/-- Claim C1 (amended): for every input history fed without error from a
fresh interpreter, when the next feed returns an error other than
`errCSITooLong`, `runes` returns the raw characters consumed since the
last Idle state with every `;` separator removed, followed by the character
whose feeding produced the error — so re-feeding the returned characters
as literal text loses exactly the `;` separators (the lossless round trip
the original claim states is refuted by `C1_counterexample`). -/
theorem C1_amended (mode : OutputMode) (h : List Char) (ei : escapeInterpreter)
    (buf : List Char) (c : Char) (r : escapeInterpreter) (b : Bool) (err : GoErr)
    (h1 : feedNoErr (newEscapeInterpreter mode, []) h = some (ei, buf))
    (h2 : parseOne ei c = some (r, b, some err))
    (h3 : err ≠ .errCSITooLong) :
    runes r = buf.filter (fun x => x != ';') ++ [c] := by
  have hInv : Inv ei buf := Inv_feed h (newEscapeInterpreter mode) [] ei buf h1 (Inv_init mode)
  cases hs : ei.state with
  | stateNone =>
    simp only [Inv, hs] at hInv
    obtain ⟨hb, hp⟩ := hInv
    by_cases hc : c = '\x1b'
    · subst hc
      rw [parseOne_none_esc ei hs hp] at h2
      simp at h2
    · rw [parseOne_none_lit ei c hs hp hc] at h2
      simp at h2
  | stateEscape =>
    simp only [Inv, hs] at hInv
    obtain ⟨hb, hp⟩ := hInv
    by_cases hc : c = '['
    · subst hc
      rw [parseOne_escape_lb ei hs hp] at h2
      simp at h2
    · rw [parseOne_escape_other ei c hs hp hc] at h2
      simp only [Option.some.injEq, Prod.mk.injEq] at h2
      obtain ⟨hr, -, -⟩ := h2
      subst hr
      simp [runes, hs, hb]
  | stateCSI =>
    simp only [Inv, hs] at hInv
    obtain ⟨hb, hp⟩ := hInv
    by_cases hc1 : '0' ≤ c ∧ c ≤ '9'
    · rw [parseOne_csi_digit ei c hs hp hc1] at h2
      simp at h2
    by_cases hc2 : c = 'm'
    · subst hc2
      cases hmode : ei.mode with
      | OutputNormal =>
        rw [parseOne_csi_m_normal ei hs hp hmode] at h2
        simp at h2
      | Output256 =>
        rw [parseOne_csi_m_256 ei hs hp hmode] at h2
        simp at h2
    by_cases hc3 : c = 'K'
    · subst hc3
      rw [parseOne_csi_K ei hs hp] at h2
      simp at h2
    by_cases hc4 : c = '?'
    · subst hc4
      rw [parseOne_csi_qm ei hs hp] at h2
      simp at h2
    · rw [parseOne_csi_other ei c hs hp hc1 hc2 hc3 hc4] at h2
      simp only [Option.some.injEq, Prod.mk.injEq] at h2
      obtain ⟨hr, -, -⟩ := h2
      subst hr
      simp [runes, hs, hb]
  | stateParams =>
    simp only [Inv, hs] at hInv
    obtain ⟨hbuf, hne⟩ := hInv
    by_cases h20 : 20 < ei.csiParam.length
    · rw [parseOne_tooLong ei c (Or.inl h20)] at h2
      simp only [Option.some.injEq, Prod.mk.injEq] at h2
      obtain ⟨-, -, herr⟩ := h2
      exact absurd herr.symm h3
    by_cases h255 : 0 < ei.csiParam.length ∧ 255 < (ei.csiParam.getLastD []).length
    · rw [parseOne_tooLong ei c (Or.inr h255)] at h2
      simp only [Option.some.injEq, Prod.mk.injEq] at h2
      obtain ⟨-, -, herr⟩ := h2
      exact absurd herr.symm h3
    by_cases hc1 : ('0' ≤ c ∧ c ≤ '9') ∨ c = '?'
    · rw [parseOne_params_digit ei c hs h20 h255 hc1] at h2
      simp at h2
    by_cases hc2 : c = ';'
    · subst hc2
      rw [parseOne_params_semi ei hs h20 h255] at h2
      simp at h2
    by_cases hc3 : c = 'm'
    · subst hc3
      cases hmode : ei.mode with
      | OutputNormal =>
        rw [parseOne_params_m_normal ei hs h20 h255 hmode] at h2
        rcases hout : outputNormalGo ei.csiParam { ei with curch := 'm' } with ⟨ei3, e3⟩
        rw [hout] at h2
        have hfr := outputNormalGo_frame ei.csiParam { ei with curch := 'm' }
        rw [hout] at hfr
        cases e3 with
        | some e4 =>
          simp only [Option.some.injEq, Prod.mk.injEq] at h2
          obtain ⟨hr, -, -⟩ := h2
          subst hr
          have hrs : ei3.state = escapeState.stateParams := Eq.trans hfr.1.1 hs
          rw [runes_params ei3 hrs, hfr.1.2, hfr.2.1, hbuf]
          rfl
        | none => simp at h2
      | Output256 =>
        rw [parseOne_params_m_256 ei hs h20 h255 hmode] at h2
        simp at h2
    by_cases hc4 : c = 'A' ∨ c = 'B' ∨ c = 'C' ∨ c = 'D'
    · rcases hA : goAtoi (ei.csiParam.getD 0 []) with _ | n
      · rw [parseOne_params_dir_err ei c hs h20 h255 hc4 hA] at h2
        simp only [Option.some.injEq, Prod.mk.injEq] at h2
        obtain ⟨hr, -, -⟩ := h2
        subst hr
        rw [runes_params { ei with curch := c } hs, hbuf]
        rfl
      · rw [parseOne_params_dir ei c n hs h20 h255 hc4 hA] at h2
        simp at h2
    by_cases hc5 : c = 'J'
    · subst hc5
      rw [parseOne_params_J ei hs h20 h255] at h2
      simp at h2
    by_cases hc6 : c = 'h' ∨ c = 'l'
    · by_cases hq : ei.csiParam.getD 0 [] = ['?', '2', '5']
      · rw [parseOne_params_hl_ok ei c hs h20 h255 hc6 hq] at h2
        simp at h2
      · rw [parseOne_params_hl_err ei c hs h20 h255 hc6 hq] at h2
        simp only [Option.some.injEq, Prod.mk.injEq] at h2
        obtain ⟨hr, -, -⟩ := h2
        subst hr
        rw [runes_params { ei with curch := c } hs, hbuf]
        rfl
    · have hch : c ≠ 'h' := fun hx => hc6 (Or.inl hx)
      have hcl : c ≠ 'l' := fun hx => hc6 (Or.inr hx)
      rw [parseOne_params_other ei c hs h20 h255 hc1 hc2 hc3 hc4 hc5 hch hcl] at h2
      simp only [Option.some.injEq, Prod.mk.injEq] at h2
      obtain ⟨hr, -, -⟩ := h2
      subst hr
      rw [runes_params { ei with curch := c } hs, hbuf]
      rfl

/-- Witness for claim C1 (amended), at the history `ESC [ 1 ; 2` and the
error character `x`: `runes` returns the consumed characters with the `;`
removed, then `x`. -/
theorem C1_amended_witness :
    runes { c1ei with curch := 'x' } =
      List.filter (fun x => x != ';') ['\x1b', '[', '1', ';', '2'] ++ ['x'] :=
  C1_amended .OutputNormal ['\x1b', '[', '1', ';', '2'] c1ei
    ['\x1b', '[', '1', ';', '2'] 'x' { c1ei with curch := 'x' } false
    .errCSIParseError (by decide) (by decide) (by decide)

theorem paramBounds_step (ei : escapeInterpreter) (c : Char) (ei2 : escapeInterpreter)
    (f : Bool) (e : Option GoErr) (hb : paramBounds ei)
    (hstep : parseOne ei c = some (ei2, f, e)) : paramBounds ei2 := by
  obtain ⟨hlen, hmem⟩ := hb
  by_cases h20 : 20 < ei.csiParam.length
  · rw [parseOne_tooLong ei c (Or.inl h20)] at hstep
    simp only [Option.some.injEq, Prod.mk.injEq] at hstep
    obtain ⟨h1, -, -⟩ := hstep
    subst h1
    exact ⟨hlen, hmem⟩
  by_cases h255 : 0 < ei.csiParam.length ∧ 255 < (ei.csiParam.getLastD []).length
  · rw [parseOne_tooLong ei c (Or.inr h255)] at hstep
    simp only [Option.some.injEq, Prod.mk.injEq] at hstep
    obtain ⟨h1, -, -⟩ := hstep
    subst h1
    exact ⟨hlen, hmem⟩
  have hlen20 : ei.csiParam.length ≤ 20 := Nat.not_lt.mp h20
  have hlast : 0 < ei.csiParam.length → (ei.csiParam.getLastD []).length ≤ 255 := by
    intro hpos
    rcases Nat.lt_or_ge 255 (ei.csiParam.getLastD []).length with hx | hx
    · exact absurd ⟨hpos, hx⟩ h255
    · exact hx
  cases hs : ei.state with
  | stateNone =>
    by_cases hc : c = '\x1b'
    · subst hc
      rw [parseOne_none_esc_g ei hs h20 h255] at hstep
      simp only [Option.some.injEq, Prod.mk.injEq] at hstep
      obtain ⟨h1, -, -⟩ := hstep
      subst h1
      exact ⟨hlen, hmem⟩
    · rw [parseOne_none_lit_g ei c hs h20 h255 hc] at hstep
      simp only [Option.some.injEq, Prod.mk.injEq] at hstep
      obtain ⟨h1, -, -⟩ := hstep
      subst h1
      exact ⟨hlen, hmem⟩
  | stateEscape =>
    by_cases hc : c = '['
    · subst hc
      rw [parseOne_escape_lb_g ei hs h20 h255] at hstep
      simp only [Option.some.injEq, Prod.mk.injEq] at hstep
      obtain ⟨h1, -, -⟩ := hstep
      subst h1
      exact ⟨hlen, hmem⟩
    · rw [parseOne_escape_other_g ei c hs h20 h255 hc] at hstep
      simp only [Option.some.injEq, Prod.mk.injEq] at hstep
      obtain ⟨h1, -, -⟩ := hstep
      subst h1
      exact ⟨hlen, hmem⟩
  | stateCSI =>
    by_cases hc1 : '0' ≤ c ∧ c ≤ '9'
    · rw [parseOne_csi_digit_g ei c hs h20 h255 hc1] at hstep
      simp only [Option.some.injEq, Prod.mk.injEq] at hstep
      obtain ⟨h1, -, -⟩ := hstep
      subst h1
      constructor
      · simp only [List.length_append, List.length_singleton]
        omega
      · intro s hsmem
        rcases List.mem_append.mp hsmem with hx | hx
        · exact hmem s hx
        · simp only [List.mem_singleton] at hx
          subst hx
          simp
    by_cases hc2 : c = 'm'
    · subst hc2
      cases hmode : ei.mode with
      | OutputNormal =>
        rw [parseOne_csi_m_normal_g ei hs h20 h255 hmode] at hstep
        rcases hout : outputNormalGo (ei.csiParam ++ [['0']]) { ei with curch := 'm', state := .stateParams, csiParam := ei.csiParam ++ [['0']] } with ⟨ei3, e3⟩
        rw [hout] at hstep
        have hfr := outputNormalGo_frame (ei.csiParam ++ [['0']]) { ei with curch := 'm', state := .stateParams, csiParam := ei.csiParam ++ [['0']] }
        rw [hout] at hfr
        cases e3 with
        | some e4 =>
          simp only [Option.some.injEq, Prod.mk.injEq] at hstep
          obtain ⟨h1, -, -⟩ := hstep
          subst h1
          have hcp : ei3.csiParam = ei.csiParam ++ [['0']] := hfr.1.2
          constructor
          · rw [hcp]
            simp only [List.length_append, List.length_singleton]
            omega
          · intro s hsmem
            rw [hcp] at hsmem
            rcases List.mem_append.mp hsmem with hx | hx
            · exact hmem s hx
            · simp only [List.mem_singleton] at hx
              subst hx
              simp
        | none =>
          simp only [Option.some.injEq, Prod.mk.injEq] at hstep
          obtain ⟨h1, -, -⟩ := hstep
          subst h1
          exact ⟨by simp, by simp⟩
      | Output256 =>
        rw [parseOne_csi_m_256_g ei hs h20 h255 hmode] at hstep
        simp at hstep
    by_cases hc3 : c = 'K'
    · subst hc3
      rw [parseOne_csi_K_g ei hs h20 h255] at hstep
      simp only [Option.some.injEq, Prod.mk.injEq] at hstep
      obtain ⟨h1, -, -⟩ := hstep
      subst h1
      exact ⟨by simp, by simp⟩
    by_cases hc4 : c = '?'
    · subst hc4
      rw [parseOne_csi_qm_g ei hs h20 h255] at hstep
      simp only [Option.some.injEq, Prod.mk.injEq] at hstep
      obtain ⟨h1, -, -⟩ := hstep
      subst h1
      constructor
      · simp only [List.length_append, List.length_singleton]
        omega
      · intro s hsmem
        rcases List.mem_append.mp hsmem with hx | hx
        · exact hmem s hx
        · simp only [List.mem_singleton] at hx
          subst hx
          simp
    · rw [parseOne_csi_other_g ei c hs h20 h255 hc1 hc2 hc3 hc4] at hstep
      simp only [Option.some.injEq, Prod.mk.injEq] at hstep
      obtain ⟨h1, -, -⟩ := hstep
      subst h1
      exact ⟨hlen, hmem⟩
  | stateParams =>
    by_cases hc1 : ('0' ≤ c ∧ c ≤ '9') ∨ c = '?'
    · rw [parseOne_params_digit ei c hs h20 h255 hc1] at hstep
      simp only [Option.some.injEq, Prod.mk.injEq] at hstep
      obtain ⟨h1, -, -⟩ := hstep
      subst h1
      constructor
      · simp only [List.length_append, List.length_singleton, List.length_dropLast]
        omega
      · intro s hsmem
        rcases List.mem_append.mp hsmem with hx | hx
        · exact hmem s (List.dropLast_subset ei.csiParam hx)
        · simp only [List.mem_singleton] at hx
          subst hx
          simp only [List.length_append, List.length_singleton]
          by_cases hpos : 0 < ei.csiParam.length
          · have := hlast hpos
            omega
          · have hnil : ei.csiParam = [] := by
              cases hcp : ei.csiParam with
              | nil => rfl
              | cons a t => rw [hcp] at hpos; simp at hpos
            rw [hnil]
            simp
    by_cases hc2 : c = ';'
    · subst hc2
      rw [parseOne_params_semi ei hs h20 h255] at hstep
      simp only [Option.some.injEq, Prod.mk.injEq] at hstep
      obtain ⟨h1, -, -⟩ := hstep
      subst h1
      constructor
      · simp only [List.length_append, List.length_singleton]
        omega
      · intro s hsmem
        rcases List.mem_append.mp hsmem with hx | hx
        · exact hmem s hx
        · simp only [List.mem_singleton] at hx
          subst hx
          simp
    by_cases hc3 : c = 'm'
    · subst hc3
      cases hmode : ei.mode with
      | OutputNormal =>
        rw [parseOne_params_m_normal ei hs h20 h255 hmode] at hstep
        rcases hout : outputNormalGo ei.csiParam { ei with curch := 'm' } with ⟨ei3, e3⟩
        rw [hout] at hstep
        have hfr := outputNormalGo_frame ei.csiParam { ei with curch := 'm' }
        rw [hout] at hfr
        cases e3 with
        | some e4 =>
          simp only [Option.some.injEq, Prod.mk.injEq] at hstep
          obtain ⟨h1, -, -⟩ := hstep
          subst h1
          have hcp : ei3.csiParam = ei.csiParam := hfr.1.2
          rw [paramBounds, hcp]
          exact ⟨hlen, hmem⟩
        | none =>
          simp only [Option.some.injEq, Prod.mk.injEq] at hstep
          obtain ⟨h1, -, -⟩ := hstep
          subst h1
          exact ⟨by simp, by simp⟩
      | Output256 =>
        rw [parseOne_params_m_256 ei hs h20 h255 hmode] at hstep
        simp at hstep
    by_cases hc4 : c = 'A' ∨ c = 'B' ∨ c = 'C' ∨ c = 'D'
    · rcases hA : goAtoi (ei.csiParam.getD 0 []) with _ | n
      · rw [parseOne_params_dir_err ei c hs h20 h255 hc4 hA] at hstep
        simp only [Option.some.injEq, Prod.mk.injEq] at hstep
        obtain ⟨h1, -, -⟩ := hstep
        subst h1
        exact ⟨hlen, hmem⟩
      · rw [parseOne_params_dir ei c n hs h20 h255 hc4 hA] at hstep
        simp only [Option.some.injEq, Prod.mk.injEq] at hstep
        obtain ⟨h1, -, -⟩ := hstep
        subst h1
        exact ⟨by simp, by simp⟩
    by_cases hc5 : c = 'J'
    · subst hc5
      rw [parseOne_params_J ei hs h20 h255] at hstep
      simp only [Option.some.injEq, Prod.mk.injEq] at hstep
      obtain ⟨h1, -, -⟩ := hstep
      subst h1
      exact ⟨by simp, by simp⟩
    by_cases hc6 : c = 'h' ∨ c = 'l'
    · by_cases hq : ei.csiParam.getD 0 [] = ['?', '2', '5']
      · rw [parseOne_params_hl_ok ei c hs h20 h255 hc6 hq] at hstep
        simp only [Option.some.injEq, Prod.mk.injEq] at hstep
        obtain ⟨h1, -, -⟩ := hstep
        subst h1
        exact ⟨by simp, by simp⟩
      · rw [parseOne_params_hl_err ei c hs h20 h255 hc6 hq] at hstep
        simp only [Option.some.injEq, Prod.mk.injEq] at hstep
        obtain ⟨h1, -, -⟩ := hstep
        subst h1
        exact ⟨hlen, hmem⟩
    · have hch : c ≠ 'h' := fun hx => hc6 (Or.inl hx)
      have hcl : c ≠ 'l' := fun hx => hc6 (Or.inr hx)
      rw [parseOne_params_other ei c hs h20 h255 hc1 hc2 hc3 hc4 hc5 hch hcl] at hstep
      simp only [Option.some.injEq, Prod.mk.injEq] at hstep
      obtain ⟨h1, -, -⟩ := hstep
      subst h1
      exact ⟨hlen, hmem⟩

theorem paramBounds_reach (ei : escapeInterpreter) (h : ReachAny ei) : paramBounds ei := by
  induction h with
  | init mode => exact ⟨by simp [newEscapeInterpreter], by simp [newEscapeInterpreter]⟩
  | step ei c ei2 f e hre hstep ih => exact paramBounds_step ei c ei2 f e ih hstep
  | doReset ei hre ih => exact ⟨by simp [reset], by simp [reset]⟩
  | doRead ei hre ih =>
    obtain ⟨h1, h2⟩ := ih
    exact ⟨h1, h2⟩

theorem bounds_keep (ei : escapeInterpreter)
    (h20 : ¬ 20 < ei.csiParam.length)
    (h255 : ¬ (0 < ei.csiParam.length ∧ 255 < (ei.csiParam.getLastD []).length))
    (l : List GoString) (hl : l = ei.csiParam) :
    ¬ (20 < l.length ∨ (0 < l.length ∧ 255 < (l.getLastD []).length)) := by
  subst hl
  rintro (h | h)
  · exact h20 h
  · exact h255 h

/-- From a state whose start-of-call bounds hold (and, as on every
reachable state, whose `stateCSI` parameter list is empty), a `parseOne`
call that returns never returns `errCSITooLong`; and when its result
violates the bounds — the feed that stores the 21st parameter or the 256th
character — the call reported success (`consumed = true`, no error). -/
theorem parseOne_inBounds (ei : escapeInterpreter) (c : Char) (ei2 : escapeInterpreter)
    (f : Bool) (e : Option GoErr)
    (h20 : ¬ 20 < ei.csiParam.length)
    (h255 : ¬ (0 < ei.csiParam.length ∧ 255 < (ei.csiParam.getLastD []).length))
    (hcsi : ei.state = .stateCSI → ei.csiParam = [])
    (hstep : parseOne ei c = some (ei2, f, e)) :
    e ≠ some .errCSITooLong ∧ (tooLongCond ei2 → e = none ∧ f = true) := by
  cases hs : ei.state with
  | stateNone =>
    by_cases hc : c = '\x1b'
    · subst hc
      rw [parseOne_none_esc_g ei hs h20 h255] at hstep
      simp only [Option.some.injEq, Prod.mk.injEq] at hstep
      obtain ⟨-, hf, he⟩ := hstep
      subst hf
      subst he
      exact ⟨by simp, fun _ => ⟨rfl, rfl⟩⟩
    · rw [parseOne_none_lit_g ei c hs h20 h255 hc] at hstep
      simp only [Option.some.injEq, Prod.mk.injEq] at hstep
      obtain ⟨h1, -, he⟩ := hstep
      subst h1
      subst he
      exact ⟨by simp, fun hviol => absurd hviol (bounds_keep ei h20 h255 _ rfl)⟩
  | stateEscape =>
    by_cases hc : c = '['
    · subst hc
      rw [parseOne_escape_lb_g ei hs h20 h255] at hstep
      simp only [Option.some.injEq, Prod.mk.injEq] at hstep
      obtain ⟨-, hf, he⟩ := hstep
      subst hf
      subst he
      exact ⟨by simp, fun _ => ⟨rfl, rfl⟩⟩
    · rw [parseOne_escape_other_g ei c hs h20 h255 hc] at hstep
      simp only [Option.some.injEq, Prod.mk.injEq] at hstep
      obtain ⟨h1, -, he⟩ := hstep
      subst h1
      subst he
      exact ⟨by decide, fun hviol => absurd hviol (bounds_keep ei h20 h255 _ rfl)⟩
  | stateCSI =>
    have hp : ei.csiParam = [] := hcsi hs
    by_cases hc1 : '0' ≤ c ∧ c ≤ '9'
    · rw [parseOne_csi_digit ei c hs hp hc1] at hstep
      simp only [Option.some.injEq, Prod.mk.injEq] at hstep
      obtain ⟨-, hf, he⟩ := hstep
      subst hf
      subst he
      exact ⟨by simp, fun _ => ⟨rfl, rfl⟩⟩
    by_cases hc2 : c = 'm'
    · subst hc2
      cases hmode : ei.mode with
      | OutputNormal =>
        rw [parseOne_csi_m_normal ei hs hp hmode] at hstep
        simp only [Option.some.injEq, Prod.mk.injEq] at hstep
        obtain ⟨-, hf, he⟩ := hstep
        subst hf
        subst he
        exact ⟨by simp, fun _ => ⟨rfl, rfl⟩⟩
      | Output256 =>
        rw [parseOne_csi_m_256 ei hs hp hmode] at hstep
        simp at hstep
    by_cases hc3 : c = 'K'
    · subst hc3
      rw [parseOne_csi_K ei hs hp] at hstep
      simp only [Option.some.injEq, Prod.mk.injEq] at hstep
      obtain ⟨-, hf, he⟩ := hstep
      subst hf
      subst he
      exact ⟨by simp, fun _ => ⟨rfl, rfl⟩⟩
    by_cases hc4 : c = '?'
    · subst hc4
      rw [parseOne_csi_qm ei hs hp] at hstep
      simp only [Option.some.injEq, Prod.mk.injEq] at hstep
      obtain ⟨-, hf, he⟩ := hstep
      subst hf
      subst he
      exact ⟨by simp, fun _ => ⟨rfl, rfl⟩⟩
    · rw [parseOne_csi_other ei c hs hp hc1 hc2 hc3 hc4] at hstep
      simp only [Option.some.injEq, Prod.mk.injEq] at hstep
      obtain ⟨h1, -, he⟩ := hstep
      subst h1
      subst he
      exact ⟨by decide, fun hviol => absurd hviol (bounds_keep ei h20 h255 _ rfl)⟩
  | stateParams =>
    by_cases hc1 : ('0' ≤ c ∧ c ≤ '9') ∨ c = '?'
    · rw [parseOne_params_digit ei c hs h20 h255 hc1] at hstep
      simp only [Option.some.injEq, Prod.mk.injEq] at hstep
      obtain ⟨-, hf, he⟩ := hstep
      subst hf
      subst he
      exact ⟨by simp, fun _ => ⟨rfl, rfl⟩⟩
    by_cases hc2 : c = ';'
    · subst hc2
      rw [parseOne_params_semi ei hs h20 h255] at hstep
      simp only [Option.some.injEq, Prod.mk.injEq] at hstep
      obtain ⟨-, hf, he⟩ := hstep
      subst hf
      subst he
      exact ⟨by simp, fun _ => ⟨rfl, rfl⟩⟩
    by_cases hc3 : c = 'm'
    · subst hc3
      cases hmode : ei.mode with
      | OutputNormal =>
        rw [parseOne_params_m_normal ei hs h20 h255 hmode] at hstep
        rcases hout : outputNormalGo ei.csiParam { ei with curch := 'm' } with ⟨ei3, e3⟩
        rw [hout] at hstep
        have hfr := outputNormalGo_frame ei.csiParam { ei with curch := 'm' }
        rw [hout] at hfr
        cases e3 with
        | some e4 =>
          simp only [Option.some.injEq, Prod.mk.injEq] at hstep
          obtain ⟨h1, -, he⟩ := hstep
          subst h1
          subst he
          exact ⟨by decide, fun hviol => absurd hviol (bounds_keep ei h20 h255 _ hfr.1.2)⟩
        | none =>
          simp only [Option.some.injEq, Prod.mk.injEq] at hstep
          obtain ⟨-, hf, he⟩ := hstep
          subst hf
          subst he
          exact ⟨by simp, fun _ => ⟨rfl, rfl⟩⟩
      | Output256 =>
        rw [parseOne_params_m_256 ei hs h20 h255 hmode] at hstep
        simp at hstep
    by_cases hc4 : c = 'A' ∨ c = 'B' ∨ c = 'C' ∨ c = 'D'
    · rcases hA : goAtoi (ei.csiParam.getD 0 []) with _ | n
      · rw [parseOne_params_dir_err ei c hs h20 h255 hc4 hA] at hstep
        simp only [Option.some.injEq, Prod.mk.injEq] at hstep
        obtain ⟨h1, -, he⟩ := hstep
        subst h1
        subst he
        exact ⟨by decide, fun hviol => absurd hviol (bounds_keep ei h20 h255 _ rfl)⟩
      · rw [parseOne_params_dir ei c n hs h20 h255 hc4 hA] at hstep
        simp only [Option.some.injEq, Prod.mk.injEq] at hstep
        obtain ⟨-, hf, he⟩ := hstep
        subst hf
        subst he
        exact ⟨by simp, fun _ => ⟨rfl, rfl⟩⟩
    by_cases hc5 : c = 'J'
    · subst hc5
      rw [parseOne_params_J ei hs h20 h255] at hstep
      simp only [Option.some.injEq, Prod.mk.injEq] at hstep
      obtain ⟨-, hf, he⟩ := hstep
      subst hf
      subst he
      exact ⟨by simp, fun _ => ⟨rfl, rfl⟩⟩
    by_cases hc6 : c = 'h' ∨ c = 'l'
    · by_cases hq : ei.csiParam.getD 0 [] = ['?', '2', '5']
      · rw [parseOne_params_hl_ok ei c hs h20 h255 hc6 hq] at hstep
        simp only [Option.some.injEq, Prod.mk.injEq] at hstep
        obtain ⟨-, hf, he⟩ := hstep
        subst hf
        subst he
        exact ⟨by simp, fun _ => ⟨rfl, rfl⟩⟩
      · rw [parseOne_params_hl_err ei c hs h20 h255 hc6 hq] at hstep
        simp only [Option.some.injEq, Prod.mk.injEq] at hstep
        obtain ⟨h1, -, he⟩ := hstep
        subst h1
        subst he
        exact ⟨by decide, fun hviol => absurd hviol (bounds_keep ei h20 h255 _ rfl)⟩
    · have hch : c ≠ 'h' := fun hx => hc6 (Or.inl hx)
      have hcl : c ≠ 'l' := fun hx => hc6 (Or.inr hx)
      rw [parseOne_params_other ei c hs h20 h255 hc1 hc2 hc3 hc4 hc5 hch hcl] at hstep
      simp only [Option.some.injEq, Prod.mk.injEq] at hstep
      obtain ⟨h1, -, he⟩ := hstep
      subst h1
      subst he
      exact ⟨by decide, fun hviol => absurd hviol (bounds_keep ei h20 h255 _ rfl)⟩

theorem csiEmpty_step (ei : escapeInterpreter) (c : Char) (ei2 : escapeInterpreter)
    (f : Bool) (e : Option GoErr)
    (hinv : ei.state ≠ .stateParams → ei.csiParam = [])
    (hstep : parseOne ei c = some (ei2, f, e)) :
    ei2.state ≠ .stateParams → ei2.csiParam = [] := by
  by_cases h20 : 20 < ei.csiParam.length
  · rw [parseOne_tooLong ei c (Or.inl h20)] at hstep
    simp only [Option.some.injEq, Prod.mk.injEq] at hstep
    obtain ⟨h1, -, -⟩ := hstep
    subst h1
    exact hinv
  by_cases h255 : 0 < ei.csiParam.length ∧ 255 < (ei.csiParam.getLastD []).length
  · rw [parseOne_tooLong ei c (Or.inr h255)] at hstep
    simp only [Option.some.injEq, Prod.mk.injEq] at hstep
    obtain ⟨h1, -, -⟩ := hstep
    subst h1
    exact hinv
  cases hs : ei.state with
  | stateNone =>
    have hp : ei.csiParam = [] := hinv (by simp [hs])
    by_cases hc : c = '\x1b'
    · subst hc
      rw [parseOne_none_esc_g ei hs h20 h255] at hstep
      simp only [Option.some.injEq, Prod.mk.injEq] at hstep
      obtain ⟨h1, -, -⟩ := hstep
      subst h1
      exact fun _ => hp
    · rw [parseOne_none_lit_g ei c hs h20 h255 hc] at hstep
      simp only [Option.some.injEq, Prod.mk.injEq] at hstep
      obtain ⟨h1, -, -⟩ := hstep
      subst h1
      exact fun _ => hp
  | stateEscape =>
    have hp : ei.csiParam = [] := hinv (by simp [hs])
    by_cases hc : c = '['
    · subst hc
      rw [parseOne_escape_lb_g ei hs h20 h255] at hstep
      simp only [Option.some.injEq, Prod.mk.injEq] at hstep
      obtain ⟨h1, -, -⟩ := hstep
      subst h1
      exact fun _ => hp
    · rw [parseOne_escape_other_g ei c hs h20 h255 hc] at hstep
      simp only [Option.some.injEq, Prod.mk.injEq] at hstep
      obtain ⟨h1, -, -⟩ := hstep
      subst h1
      exact fun _ => hp
  | stateCSI =>
    have hp : ei.csiParam = [] := hinv (by simp [hs])
    by_cases hc1 : '0' ≤ c ∧ c ≤ '9'
    · rw [parseOne_csi_digit ei c hs hp hc1] at hstep
      simp only [Option.some.injEq, Prod.mk.injEq] at hstep
      obtain ⟨h1, -, -⟩ := hstep
      subst h1
      exact fun hne => absurd rfl hne
    by_cases hc2 : c = 'm'
    · subst hc2
      cases hmode : ei.mode with
      | OutputNormal =>
        rw [parseOne_csi_m_normal ei hs hp hmode] at hstep
        simp only [Option.some.injEq, Prod.mk.injEq] at hstep
        obtain ⟨h1, -, -⟩ := hstep
        subst h1
        exact fun _ => rfl
      | Output256 =>
        rw [parseOne_csi_m_256 ei hs hp hmode] at hstep
        simp at hstep
    by_cases hc3 : c = 'K'
    · subst hc3
      rw [parseOne_csi_K ei hs hp] at hstep
      simp only [Option.some.injEq, Prod.mk.injEq] at hstep
      obtain ⟨h1, -, -⟩ := hstep
      subst h1
      exact fun _ => rfl
    by_cases hc4 : c = '?'
    · subst hc4
      rw [parseOne_csi_qm ei hs hp] at hstep
      simp only [Option.some.injEq, Prod.mk.injEq] at hstep
      obtain ⟨h1, -, -⟩ := hstep
      subst h1
      exact fun hne => absurd rfl hne
    · rw [parseOne_csi_other ei c hs hp hc1 hc2 hc3 hc4] at hstep
      simp only [Option.some.injEq, Prod.mk.injEq] at hstep
      obtain ⟨h1, -, -⟩ := hstep
      subst h1
      exact fun _ => hp
  | stateParams =>
    by_cases hc1 : ('0' ≤ c ∧ c ≤ '9') ∨ c = '?'
    · rw [parseOne_params_digit ei c hs h20 h255 hc1] at hstep
      simp only [Option.some.injEq, Prod.mk.injEq] at hstep
      obtain ⟨h1, -, -⟩ := hstep
      subst h1
      exact fun hne => absurd hs hne
    by_cases hc2 : c = ';'
    · subst hc2
      rw [parseOne_params_semi ei hs h20 h255] at hstep
      simp only [Option.some.injEq, Prod.mk.injEq] at hstep
      obtain ⟨h1, -, -⟩ := hstep
      subst h1
      exact fun hne => absurd hs hne
    by_cases hc3 : c = 'm'
    · subst hc3
      cases hmode : ei.mode with
      | OutputNormal =>
        rw [parseOne_params_m_normal ei hs h20 h255 hmode] at hstep
        rcases hout : outputNormalGo ei.csiParam { ei with curch := 'm' } with ⟨ei3, e3⟩
        rw [hout] at hstep
        have hfr := outputNormalGo_frame ei.csiParam { ei with curch := 'm' }
        rw [hout] at hfr
        cases e3 with
        | some e4 =>
          simp only [Option.some.injEq, Prod.mk.injEq] at hstep
          obtain ⟨h1, -, -⟩ := hstep
          subst h1
          exact fun hne => absurd (Eq.trans hfr.1.1 hs) hne
        | none =>
          simp only [Option.some.injEq, Prod.mk.injEq] at hstep
          obtain ⟨h1, -, -⟩ := hstep
          subst h1
          exact fun _ => rfl
      | Output256 =>
        rw [parseOne_params_m_256 ei hs h20 h255 hmode] at hstep
        simp at hstep
    by_cases hc4 : c = 'A' ∨ c = 'B' ∨ c = 'C' ∨ c = 'D'
    · rcases hA : goAtoi (ei.csiParam.getD 0 []) with _ | n
      · rw [parseOne_params_dir_err ei c hs h20 h255 hc4 hA] at hstep
        simp only [Option.some.injEq, Prod.mk.injEq] at hstep
        obtain ⟨h1, -, -⟩ := hstep
        subst h1
        exact fun hne => absurd hs hne
      · rw [parseOne_params_dir ei c n hs h20 h255 hc4 hA] at hstep
        simp only [Option.some.injEq, Prod.mk.injEq] at hstep
        obtain ⟨h1, -, -⟩ := hstep
        subst h1
        exact fun _ => rfl
    by_cases hc5 : c = 'J'
    · subst hc5
      rw [parseOne_params_J ei hs h20 h255] at hstep
      simp only [Option.some.injEq, Prod.mk.injEq] at hstep
      obtain ⟨h1, -, -⟩ := hstep
      subst h1
      exact fun _ => rfl
    by_cases hc6 : c = 'h' ∨ c = 'l'
    · by_cases hq : ei.csiParam.getD 0 [] = ['?', '2', '5']
      · rw [parseOne_params_hl_ok ei c hs h20 h255 hc6 hq] at hstep
        simp only [Option.some.injEq, Prod.mk.injEq] at hstep
        obtain ⟨h1, -, -⟩ := hstep
        subst h1
        exact fun _ => rfl
      · rw [parseOne_params_hl_err ei c hs h20 h255 hc6 hq] at hstep
        simp only [Option.some.injEq, Prod.mk.injEq] at hstep
        obtain ⟨h1, -, -⟩ := hstep
        subst h1
        exact fun hne => absurd hs hne
    · have hch : c ≠ 'h' := fun hx => hc6 (Or.inl hx)
      have hcl : c ≠ 'l' := fun hx => hc6 (Or.inr hx)
      rw [parseOne_params_other ei c hs h20 h255 hc1 hc2 hc3 hc4 hc5 hch hcl] at hstep
      simp only [Option.some.injEq, Prod.mk.injEq] at hstep
      obtain ⟨h1, -, -⟩ := hstep
      subst h1
      exact fun hne => absurd hs hne

theorem csiEmpty_reach (ei : escapeInterpreter) (h : ReachAny ei) :
    ei.state ≠ .stateParams → ei.csiParam = [] := by
  induction h with
  | init mode => exact fun _ => rfl
  | step ei c ei2 f e hre hstep ih => exact csiEmpty_step ei c ei2 f e ih hstep
  | doReset ei hre ih => exact fun _ => rfl
  | doRead ei hre ih => exact fun hx => ih hx

theorem ReachAny_of_feed_aux (cs : List Char) (p q : escapeInterpreter × List Char)
    (hfeed : feedNoErr p cs = some q) (hre : ReachAny p.1) : ReachAny q.1 := by
  induction cs generalizing p with
  | nil =>
    simp only [feedNoErr, Option.some.injEq] at hfeed
    rw [← hfeed]
    exact hre
  | cons c cs ih =>
    rcases p with ⟨ei, buf⟩
    simp only [feedNoErr] at hfeed
    rcases hp : parseOne ei c with _ | ⟨ei3, f, e⟩
    · rw [hp] at hfeed
      simp at hfeed
    · rw [hp] at hfeed
      cases e with
      | some err => simp at hfeed
      | none =>
        simp only at hfeed
        exact ih _ hfeed (ReachAny.step ei c ei3 f none hre hp)

theorem ReachAny_of_feed (mode : OutputMode) (h : List Char) (ei : escapeInterpreter)
    (buf : List Char)
    (hfeed : feedNoErr (newEscapeInterpreter mode, []) h = some (ei, buf)) : ReachAny ei :=
  ReachAny_of_feed_aux h (newEscapeInterpreter mode, []) (ei, buf) hfeed (ReachAny.init mode)

/-- Claim C3 (amended): for every reachable interpreter state the stored
parameter list never holds more than 21 parameters nor any parameter string
longer than 256 characters, and a feed is rejected with `errCSITooLong`
EXACTLY when — at the start of the call — the parameter count already
exceeds 20 or the last parameter already exceeds 255 characters: when the
condition holds the call returns `errCSITooLong` with the state unchanged,
and when it does not hold (on a reachable state) a returning call never
yields `errCSITooLong`, and a call whose result violates the bounds — the
violating feed itself — reported success. The original bounds (no call
ever yields 21 parameters, error already on the violating feed) are
refuted by `C3_counterexample`: the check fires one character late. -/
theorem C3_amended (ei : escapeInterpreter) (c : Char) :
    (ReachAny ei → ei.csiParam.length ≤ 21 ∧ ∀ s ∈ ei.csiParam, s.length ≤ 256) ∧
      (tooLongCond ei → parseOne ei c = some (ei, false, some .errCSITooLong)) ∧
      (ReachAny ei → ¬ tooLongCond ei → ∀ ei2 f e, parseOne ei c = some (ei2, f, e) →
        e ≠ some .errCSITooLong ∧ (tooLongCond ei2 → e = none ∧ f = true)) :=
  ⟨fun h => paramBounds_reach ei h,
    fun h => parseOne_tooLong ei c h,
    fun hre hnv ei2 f e hstep =>
      parseOne_inBounds ei c ei2 f e (fun hx => hnv (Or.inl hx)) (fun hx => hnv (Or.inr hx))
        (fun hs => csiEmpty_reach ei hre (by simp [hs])) hstep⟩

/-- Witness for claim C3 (amended): the bounds at a concrete reachable
state (the fresh interpreter); the `errCSITooLong` rejection at the
concrete 21-parameter state `c3ei`; and, at the reachable within-bounds
20-parameter state `c3ei20` (fed `ESC [ 0` and nineteen `;`), the
violating `;` feed returning no `errCSITooLong` — it succeeds with the
21st parameter stored. -/
theorem C3_amended_witness :
    ((newEscapeInterpreter .OutputNormal).csiParam.length ≤ 21 ∧
      ∀ s ∈ (newEscapeInterpreter .OutputNormal).csiParam, s.length ≤ 256) ∧
      parseOne c3ei 'x' = some (c3ei, false, some .errCSITooLong) ∧
      ((none : Option GoErr) ≠ some .errCSITooLong ∧
        (tooLongCond c3ei21 → (none : Option GoErr) = none ∧ (true : Bool) = true)) :=
  ⟨(C3_amended (newEscapeInterpreter .OutputNormal) 'x').1 (ReachAny.init .OutputNormal),
    (C3_amended c3ei 'x').2.1 (by decide),
    (C3_amended c3ei20 ';').2.2
      (ReachAny_of_feed .OutputNormal (['\x1b', '[', '0'] ++ List.replicate 19 ';') c3ei20
        (['\x1b', '[', '0'] ++ List.replicate 19 ';') (by decide))
      (by decide) c3ei21 true none (by decide)⟩

/-- Claim C4 (amended): in state `stateParams` (with the length checks
passing, as they do on every reachable Params state), feeding the
terminator `h` or `l` succeeds — `consumed = true`, no error, no attribute
change, no instruction latched, state back to Idle with empty parameters —
if and only if the first parameter equals the string `?25`; parameters
after the first are ignored (the original "solely the single parameter"
is refuted by `C4_counterexample`); any other first parameter yields
`errCSIParseError` with the state and parameter list retained. -/
theorem C4_amended (ei : escapeInterpreter) (c : Char)
    (hs : ei.state = .stateParams)
    (h20 : ¬ 20 < ei.csiParam.length)
    (h255 : ¬ (0 < ei.csiParam.length ∧ 255 < (ei.csiParam.getLastD []).length))
    (hc : c = 'h' ∨ c = 'l') :
    (ei.csiParam.getD 0 [] = ['?', '2', '5'] →
      parseOne ei c =
        some ({ ei with curch := c, state := .stateNone, csiParam := [] }, true, none)) ∧
      (ei.csiParam.getD 0 [] ≠ ['?', '2', '5'] →
        parseOne ei c = some ({ ei with curch := c }, false, some .errCSIParseError)) :=
  ⟨fun hq => parseOne_params_hl_ok ei c hs h20 h255 hc hq,
    fun hq => parseOne_params_hl_err ei c hs h20 h255 hc hq⟩

/-- Witness for claim C4 (amended) at the concrete state `c4ei` (sole
parameter `?25`) and terminator `h`: accepted, no observable change, back
to Idle. -/
theorem C4_amended_witness :
    parseOne c4ei 'h' =
      some ({ c4ei with curch := 'h', state := .stateNone, csiParam := [] }, true, none) :=
  (C4_amended c4ei 'h' rfl (by decide) (by decide) (Or.inl rfl)).1 (by decide)

/-- Claim C7: in state `stateParams` (with the length checks passing),
feeding `A`, `B`, `C` or `D` parses the first parameter as an integer
(yielding `errCSIParseError` when it is not a valid integer) and otherwise
latches the instruction kind given by `directionMap` — `A` is `CURSOR_UP`,
`B` is `CURSOR_DOWN`, `C` is `CURSOR_LEFT`, `D` is `CURSOR_RIGHT` — with
`param1` the parsed count, returning to Idle with empty parameters; and
feeding `ESC [ 2 A` from a fresh interpreter latches CursorUp with count
2. -/
theorem C7_cursor (ei : escapeInterpreter) (c : Char) (n : Int)
    (hs : ei.state = .stateParams)
    (h20 : ¬ 20 < ei.csiParam.length)
    (h255 : ¬ (0 < ei.csiParam.length ∧ 255 < (ei.csiParam.getLastD []).length))
    (hc : c = 'A' ∨ c = 'B' ∨ c = 'C' ∨ c = 'D') :
    (goAtoi (ei.csiParam.getD 0 []) = some n →
      parseOne ei c =
        some ({ ei with curch := c, instruction := { ei.instruction with kind := directionMap c, param1 := n }, state := .stateNone, csiParam := [] }, true, none)) ∧
      (goAtoi (ei.csiParam.getD 0 []) = none →
        parseOne ei c = some ({ ei with curch := c }, false, some .errCSIParseError)) ∧
      directionMap 'A' = CURSOR_UP ∧ directionMap 'B' = CURSOR_DOWN ∧
      directionMap 'C' = CURSOR_LEFT ∧ directionMap 'D' = CURSOR_RIGHT ∧
      ((feedNoErr (newEscapeInterpreter .OutputNormal, []) ['\x1b', '[', '2', 'A']).map
          fun p => (p.1.instruction.kind, p.1.instruction.param1, p.1.state)) =
        some (CURSOR_UP, 2, .stateNone) :=
  ⟨fun hA => parseOne_params_dir ei c n hs h20 h255 hc hA,
    fun hA => parseOne_params_dir_err ei c hs h20 h255 hc hA,
    by decide, by decide, by decide, by decide, by rfl⟩

/-- Witness for claim C7 at the concrete state `c7ei` (sole parameter `2`)
and terminator `A`. -/
theorem C7_cursor_witness :
    parseOne c7ei 'A' =
      some ({ c7ei with curch := 'A', instruction := { c7ei.instruction with kind := directionMap 'A', param1 := 2 }, state := .stateNone, csiParam := [] }, true, none) :=
  (C7_cursor c7ei 'A' 2 rfl (by decide) (by decide) (Or.inl rfl)).1 (by decide)

/-- Claim C6: the Basic resolver loop processes the accumulated parameters
in order; a parameter that does not parse as an integer stops it with
`errCSIParseError`, and each parsed code acts as the claim lists: 30-37 set
the foreground to code - 30 + 1, 39 resets the foreground, 40-47 set the
background to code - 40 + 1, 49 resets the background, 1/4/7 set the
Bold/Underline/Reverse flags on the foreground, 0 resets both colors
(clearing the flags packed in them), and any other numeric value is
ignored without error. Feeding `ESC [ 3 1 m` then `X` from fresh leaves
the foreground slot at 2 with `X` a literal (scenario A). -/
theorem C6_basic (ei : escapeInterpreter) (p : Int) (s : GoString) (rest : List GoString) :
    outputNormalGo [] ei = (ei, none) ∧
      (goAtoi s = none → outputNormalGo (s :: rest) ei = (ei, some .errCSIParseError)) ∧
      (goAtoi s = some p → outputNormalGo (s :: rest) ei = outputNormalGo rest (applySGR ei p)) ∧
      (30 ≤ p ∧ p ≤ 37 → applySGR ei p = { ei with curFgColor := (p - 30 + 1).toNat }) ∧
      (p = 39 → applySGR ei p = { ei with curFgColor := ColorDefault }) ∧
      (40 ≤ p ∧ p ≤ 47 → applySGR ei p = { ei with curBgColor := (p - 40 + 1).toNat }) ∧
      (p = 49 → applySGR ei p = { ei with curBgColor := ColorDefault }) ∧
      (p = 1 → applySGR ei p = { ei with curFgColor := Nat.lor ei.curFgColor AttrBold }) ∧
      (p = 4 → applySGR ei p = { ei with curFgColor := Nat.lor ei.curFgColor AttrUnderline }) ∧
      (p = 7 → applySGR ei p = { ei with curFgColor := Nat.lor ei.curFgColor AttrReverse }) ∧
      (p = 0 → applySGR ei p = { ei with curFgColor := ColorDefault, curBgColor := ColorDefault }) ∧
      (¬ (30 ≤ p ∧ p ≤ 37) → ¬ (40 ≤ p ∧ p ≤ 47) → p ≠ 39 → p ≠ 49 → p ≠ 1 → p ≠ 4 → p ≠ 7 → p ≠ 0 → applySGR ei p = ei) ∧
      ((feedNoErr (newEscapeInterpreter .OutputNormal, []) ['\x1b', '[', '3', '1', 'm']).bind
          fun pr => (parseOne pr.1 'X').map fun q => (q.1.curFgColor, q.2.1, q.2.2)) =
        some (2, false, none) := by
  refine ⟨rfl, fun h => by simp [outputNormalGo, h], fun h => by simp [outputNormalGo, h],
    fun h => by rw [applySGR, if_pos h], fun h => by subst h; rfl,
    fun h => ?_, fun h => by subst h; rfl, fun h => by subst h; rfl,
    fun h => by subst h; rfl, fun h => by subst h; rfl, fun h => by subst h; rfl,
    fun h1 h2 h3 h4 h5 h6 h7 h8 => ?_, by rfl⟩
  · rw [applySGR, if_neg (by omega), if_neg (by omega), if_pos h]
  · rw [applySGR, if_neg h1, if_neg h3, if_neg h2, if_neg h4, if_neg h5, if_neg h6,
      if_neg h7, if_neg h8]

/-- Witness for claim C6, at the parameter string `31` on a fresh
interpreter: the loop parses it and sets the foreground slot to 2. -/
theorem C6_basic_witness :
    outputNormalGo [['3', '1']] (newEscapeInterpreter .OutputNormal) =
        outputNormalGo [] (applySGR (newEscapeInterpreter .OutputNormal) 31) ∧
      applySGR (newEscapeInterpreter .OutputNormal) 31 =
        { newEscapeInterpreter .OutputNormal with curFgColor := ((31 : Int) - 30 + 1).toNat } :=
  ⟨(C6_basic (newEscapeInterpreter .OutputNormal) 31 ['3', '1'] []).2.2.1 (by decide),
    (C6_basic (newEscapeInterpreter .OutputNormal) 31 ['3', '1'] []).2.2.2.1 (by decide)⟩

/-- Claim C5 (amended): the Extended resolver body delegates to the Basic
strategy when there are fewer than 3 parameters, or when the second
parameter is numeric and differs from 5; a NON-NUMERIC second parameter
instead yields `errCSIParseError` without applying anything (this is where
the original claim fails, see `C5_counterexample`). With second parameter
5: a non-numeric first or third parameter errors; first parameter 38 sets
the foreground to (third parameter) + 1 and scans the remaining parameters
for 1/4/7 modifiers; first parameter 48 sets the background to (third
parameter) + 1; any other first parameter yields `errCSIParseError`.
Resolving `38;5;196` yields foreground slot 197 (and with trailing `1`,
`4` also Bold and Underline); note the enclosing `parseOne` call in
`Output256` mode never actually returns — the self-deadlock recorded under
claim C2. -/
theorem C5_amended (ei : escapeInterpreter) (k fgbg color : Int) :
    (ei.csiParam.length < 3 → output256Body ei = outputNormal ei) ∧
      (¬ ei.csiParam.length < 3 → goAtoi (ei.csiParam.getD 1 []) = none →
        output256Body ei = (ei, some .errCSIParseError)) ∧
      (¬ ei.csiParam.length < 3 → goAtoi (ei.csiParam.getD 1 []) = some k → k ≠ 5 →
        output256Body ei = outputNormal ei) ∧
      (¬ ei.csiParam.length < 3 → goAtoi (ei.csiParam.getD 1 []) = some 5 →
        goAtoi (ei.csiParam.getD 0 []) = none →
        output256Body ei = (ei, some .errCSIParseError)) ∧
      (¬ ei.csiParam.length < 3 → goAtoi (ei.csiParam.getD 1 []) = some 5 →
        goAtoi (ei.csiParam.getD 0 []) = some fgbg →
        goAtoi (ei.csiParam.getD 2 []) = none →
        output256Body ei = (ei, some .errCSIParseError)) ∧
      (¬ ei.csiParam.length < 3 → goAtoi (ei.csiParam.getD 1 []) = some 5 →
        goAtoi (ei.csiParam.getD 0 []) = some 38 →
        goAtoi (ei.csiParam.getD 2 []) = some color →
        output256Body ei = scanMods (ei.csiParam.drop 3) { ei with curFgColor := (color + 1).toNat }) ∧
      (¬ ei.csiParam.length < 3 → goAtoi (ei.csiParam.getD 1 []) = some 5 →
        goAtoi (ei.csiParam.getD 0 []) = some 48 →
        goAtoi (ei.csiParam.getD 2 []) = some color →
        output256Body ei = ({ ei with curBgColor := (color + 1).toNat }, none)) ∧
      (¬ ei.csiParam.length < 3 → goAtoi (ei.csiParam.getD 1 []) = some 5 →
        goAtoi (ei.csiParam.getD 0 []) = some fgbg → fgbg ≠ 38 → fgbg ≠ 48 →
        goAtoi (ei.csiParam.getD 2 []) = some color →
        output256Body ei = (ei, some .errCSIParseError)) ∧
      (output256Body c5ei2).1.curFgColor = 197 ∧ (output256Body c5ei2).2 = none ∧
      (output256Body { c5ei2 with csiParam := c5ei2.csiParam ++ [['1'], ['4']] }).1.curFgColor =
        Nat.lor (Nat.lor 197 AttrBold) AttrUnderline := by
  refine ⟨fun h => by rw [output256Body, if_pos h],
    fun h h1 => ?_, fun h h1 hk => ?_, fun h h1 h0 => ?_, fun h h1 h0 h2 => ?_,
    fun h h1 h0 h2 => ?_, fun h h1 h0 h2 => ?_, fun h h1 h0 hf1 hf2 h2 => ?_,
    by rfl, by rfl, by rfl⟩
  · have h1n : goAtoi (ei.csiParam[1]?.getD []) = none := by simpa using h1
    simp [output256Body, h, h1n]
  · have h1n : goAtoi (ei.csiParam[1]?.getD []) = some k := by simpa using h1
    simp [output256Body, h, h1n, hk]
  · have h1n : goAtoi (ei.csiParam[1]?.getD []) = some 5 := by simpa using h1
    have h0n : goAtoi (ei.csiParam[0]?.getD []) = none := by simpa using h0
    simp [output256Body, h, h1n, h0n]
  · have h1n : goAtoi (ei.csiParam[1]?.getD []) = some 5 := by simpa using h1
    have h2n : goAtoi (ei.csiParam[2]?.getD []) = none := by simpa using h2
    rcases hfg : goAtoi (ei.csiParam[0]?.getD []) with _ | q
    · simp [output256Body, h, h1n, hfg]
    · by_cases hq38 : q = 38
      · subst hq38
        simp [output256Body, h, h1n, hfg, h2n]
      · by_cases hq48 : q = 48
        · subst hq48
          simp [output256Body, h, h1n, hfg, h2n]
        · simp [output256Body, h, h1n, hfg, hq38, hq48, h2n]
  · have h1n : goAtoi (ei.csiParam[1]?.getD []) = some 5 := by simpa using h1
    have h0n : goAtoi (ei.csiParam[0]?.getD []) = some 38 := by simpa using h0
    have h2n : goAtoi (ei.csiParam[2]?.getD []) = some color := by simpa using h2
    simp [output256Body, h, h1n, h0n, h2n]
  · have h1n : goAtoi (ei.csiParam[1]?.getD []) = some 5 := by simpa using h1
    have h0n : goAtoi (ei.csiParam[0]?.getD []) = some 48 := by simpa using h0
    have h2n : goAtoi (ei.csiParam[2]?.getD []) = some color := by simpa using h2
    simp [output256Body, h, h1n, h0n, h2n]
  · have h1n : goAtoi (ei.csiParam[1]?.getD []) = some 5 := by simpa using h1
    have h0n : goAtoi (ei.csiParam[0]?.getD []) = some fgbg := by simpa using h0
    have h2n : goAtoi (ei.csiParam[2]?.getD []) = some color := by simpa using h2
    simp [output256Body, h, h1n, h0n, h2n, hf1, hf2]

/-- Witness for claim C5 (amended) at the concrete parameters `38;5;196`
(the state `c5ei2`). -/
theorem C5_amended_witness :
    output256Body c5ei2 =
      scanMods (c5ei2.csiParam.drop 3) { c5ei2 with curFgColor := ((196 : Int) + 1).toNat } :=
  (C5_amended c5ei2 5 38 196).2.2.2.2.2.1 (by decide) (by decide) (by decide) (by decide)

theorem applyParams_frame (l : List GoString) (ei : escapeInterpreter) :
    (applyParams l ei).state = ei.state ∧ (applyParams l ei).csiParam = ei.csiParam ∧
      (applyParams l ei).curch = ei.curch := by
  induction l generalizing ei with
  | nil => exact ⟨rfl, rfl, rfl⟩
  | cons s t ih =>
    rcases hA : goAtoi s with _ | p
    · simpa [applyParams, hA] using ih ei
    · have h1 := ih (applySGR ei p)
      have h2 := applySGR_frame ei p
      simp only [applyParams, List.foldl_cons, hA] at h1 ⊢
      exact ⟨h1.1.trans h2.1, h1.2.1.trans h2.2.1, h1.2.2.trans h2.2.2.1⟩

theorem outputNormalGo_split (pre : List GoString) (bad : GoString) (rest : List GoString)
    (ei : escapeInterpreter) (hpre : ∀ s ∈ pre, (goAtoi s).isSome)
    (hbad : goAtoi bad = none) :
    outputNormalGo (pre ++ bad :: rest) ei = (applyParams pre ei, some .errCSIParseError) := by
  induction pre generalizing ei with
  | nil => simp [outputNormalGo, applyParams, hbad]
  | cons s t ih =>
    rcases hA : goAtoi s with _ | p
    · have := hpre s (List.mem_cons_self s t)
      rw [hA] at this
      simp at this
    · have hmem : ∀ x ∈ t, (goAtoi x).isSome := fun x hx => hpre x (List.mem_cons_of_mem s hx)
      simp only [List.cons_append, outputNormalGo, hA, applyParams, List.foldl_cons]
      exact ih (applySGR ei p) hmem

/-- Claim C9 (amended): at an `m` terminator in Basic mode, when the
parameter list splits as numeric parameters followed by a first non-numeric
parameter (and anything after it), the feed returns `errCSIParseError`,
the machine stays in `stateParams` with the parameter list retained, and
exactly the numeric parameters BEFORE the first non-numeric one have
already been applied to the attribute state. In particular, after feeding
`ESC [ 3 1 ; ?` and then `m`, the foreground slot is already 2 although the
call failed. (The original claim's bare "contains a color parameter
followed by a non-numeric one" is refuted by `C9_counterexample`, where a
non-numeric parameter precedes the color parameter and the color is not
applied.) -/
theorem C9_amended (ei : escapeInterpreter) (pre : List GoString) (bad : GoString)
    (rest : List GoString)
    (hs : ei.state = .stateParams)
    (h20 : ¬ 20 < ei.csiParam.length)
    (h255 : ¬ (0 < ei.csiParam.length ∧ 255 < (ei.csiParam.getLastD []).length))
    (hm : ei.mode = .OutputNormal)
    (hsplit : ei.csiParam = pre ++ bad :: rest)
    (hpre : ∀ s ∈ pre, (goAtoi s).isSome)
    (hbad : goAtoi bad = none) :
    parseOne ei 'm' =
        some (applyParams pre { ei with curch := 'm' }, false, some .errCSIParseError) ∧
      (applyParams pre { ei with curch := 'm' }).state = .stateParams ∧
      (applyParams pre { ei with curch := 'm' }).csiParam = ei.csiParam ∧
      ((parseOne c9ei 'm').map fun q => (q.2.2, q.1.state, q.1.csiParam, q.1.curFgColor)) =
        some (some .errCSIParseError, .stateParams, [['3', '1'], ['?']], 2) := by
  have hout := outputNormalGo_split pre bad rest { ei with curch := 'm' } hpre hbad
  rw [← hsplit] at hout
  have hfr := applyParams_frame pre { ei with curch := 'm' }
  refine ⟨?_, Eq.trans hfr.1 hs, hfr.2.1, by rfl⟩
  rw [parseOne_params_m_normal ei hs h20 h255 hm, hout]

/-- Witness for claim C9 (amended) at the concrete state `c9ei` (parameters
`31`, `?`): the feed fails but the 31 has been applied. -/
theorem C9_amended_witness :
    parseOne c9ei 'm' =
        some (applyParams [['3', '1']] { c9ei with curch := 'm' }, false,
          some .errCSIParseError) ∧
      (applyParams [['3', '1']] { c9ei with curch := 'm' }).curFgColor = 2 :=
  ⟨(C9_amended c9ei [['3', '1']] ['?'] [] rfl (by decide) (by decide) rfl rfl
      (by decide) (by decide)).1, by decide⟩

end Gocui
